import Mathlib

/-!
Verification development for the layer-builder document ingestion core
(`excel_parser.py` and `pdf_parser.py`).

The Python source is shallowly embedded:
* cell values are an inductive type (`CellValue`): `None`, numbers, strings;
* Python floats are modelled as rationals (`ℚ`); `float(str)` parsing is
  modelled by `pyFloat?` covering sign / digits / a single decimal point
  (the sub-language produced by the parser's own cleanup steps);
* the regular-expression searches of the source are executed by a small
  prioritized backtracking matcher (`RE`, `runC`, `researchText`,
  `refinditer`) whose alternation order, greediness and laziness follow
  Python `re` semantics; every pattern of the source is transcribed as an
  `RE` value;
* fallible code is modelled with `Option`/`Except`.
-/

/- The arithmetic of the embedding must be evaluable by `decide`; the
core `Rat` operations are `@[irreducible]` by default, which only
affects elaborator-side reduction (the kernel ignores reducibility). -/
set_option allowUnsafeReducibility true
attribute [local semireducible] Rat.add Rat.mul Rat.div Rat.inv Rat.sub Rat.neg
set_option maxRecDepth 1000000

/-! ## Character and string helpers (Python `str` operations) -/

/-- Python whitespace characters (`str.strip`, `\s`), ASCII range. -/
def isPyWs (c : Char) : Bool :=
  c = ' ' || c = '\t' || c = '\n' || c = '\r' || c = '\x0b' || c = '\x0c'

/-- ASCII lower-casing of a char list (`str.lower`). -/
def lowerL (s : List Char) : List Char := s.map Char.toLower

/-- ASCII upper-casing of a char list (`str.upper`). -/
def upperL (s : List Char) : List Char := s.map Char.toUpper

/-- `str.strip()`: drop whitespace from both ends. -/
def stripL (s : List Char) : List Char :=
  ((s.dropWhile isPyWs).reverse.dropWhile isPyWs).reverse

/-- Python substring test `needle in hay`. -/
def isSubL : List Char → List Char → Bool
  | _, [] => false
  | n, h@(_ :: t) => h.take n.length = n || isSubL n t

/-- `a in b` for possibly-empty needles (Python: empty string is in anything). -/
def inPy (n h : List Char) : Bool :=
  n.isEmpty || isSubL n h

/-- `str.startswith`. -/
def startsW : List Char → List Char → Bool
  | s, p => s.take p.length = p

/-- `str.replace old new` (all non-overlapping occurrences, left to right);
every use site in the source passes a nonempty `old`, on empty `old` this
model is the identity.  Fuelled by the subject length so that the kernel
can evaluate it. -/
def replaceAllL (old new : List Char) (s : List Char) : List Char :=
  go (s.length + 1) s
where
  go : ℕ → List Char → List Char
    | 0, s => s
    | _, [] => []
    | fuel + 1, c :: t =>
      if ¬ old.isEmpty ∧ (c :: t).take old.length = old then
        new ++ go fuel ((c :: t).drop old.length)
      else
        c :: go fuel t

/-- Keep only the characters satisfying `p` (models `re.sub(negated-class, "", s)`). -/
def keepOnly (p : Char → Bool) (s : List Char) : List Char := s.filter p

/-- Digits value of a digit list (most significant first). -/
def digitsVal (s : List Char) : ℕ :=
  s.foldl (fun a c => a * 10 + (c.toNat - '0'.toNat)) 0

/-- `10 ^ n` as a rational, by structural recursion. -/
def pow10 : ℕ → ℚ
  | 0 => 1
  | n + 1 => 10 * pow10 n

/-- Model of Python `float(str)` restricted to the sub-language
`[+-]? (digits | digits . digits? | . digits)` with surrounding whitespace
allowed; anything else (two dots, stray characters, exponents, inf/nan)
is `none`, modelling `ValueError`. -/
def pyFloat? (s0 : List Char) : Option ℚ :=
  let s := stripL s0
  let core : List Char → Option ℚ := fun t =>
    let intPart := t.takeWhile Char.isDigit
    let rest := t.dropWhile Char.isDigit
    match rest with
    | [] => if intPart.isEmpty then none else some (digitsVal intPart)
    | '.' :: frac =>
      if frac.all Char.isDigit && !(intPart.isEmpty && frac.isEmpty) then
        some ((digitsVal intPart : ℚ) + (digitsVal frac : ℚ) / pow10 frac.length)
      else none
    | _ => none
  match s with
  | '+' :: t => core t
  | '-' :: t => (core t).map Neg.neg
  | t => core t

/-! ## A prioritized backtracking regex matcher

Quantifiers in every pattern of the source apply to single-character
classes only, so `RE` needs class-quantifiers, sequencing, alternation,
option, literals and capture groups.  Alternation, greedy (`starG`) and
lazy (`starL`) quantifiers explore alternatives in Python `re` priority
order; matching is continuation-passing with first-success cut. -/

inductive RE where
  /-- empty pattern -/
  | eps : RE
  /-- `$` anchor (end of subject) -/
  | eos : RE
  /-- single character class -/
  | cls (p : Char → Bool) : RE
  /-- case-insensitive literal -/
  | lit (cs : List Char) : RE
  | seq (a b : RE) : RE
  | alt (a b : RE) : RE
  /-- greedy `?` -/
  | opt (a : RE) : RE
  /-- greedy `*` over a class -/
  | starG (p : Char → Bool) : RE
  /-- lazy `*?` over a class -/
  | starL (p : Char → Bool) : RE
  /-- capture group `n` -/
  | grp (n : ℕ) (a : RE) : RE

/-- Captured groups: association list, group number to captured chars. -/
abbrev Caps := List (ℕ × List Char)

/-- Case-insensitive literal consumption. -/
def dropLit : List Char → List Char → Option (List Char)
  | [], s => some s
  | _ :: _, [] => none
  | c :: cs, a :: as_ =>
    if c.toLower = a.toLower then dropLit cs as_ else none

/-- Greedy class star: longest consumption first, backtracking shorter. -/
def starGRun {A : Type} (p : Char → Bool) :
    List Char → Caps → (List Char → Caps → Option A) → Option A
  | [], caps, k => k [] caps
  | s@(c :: rest), caps, k =>
    if p c then (starGRun p rest caps k) <|> k s caps
    else k s caps

/-- Lazy class star: shortest consumption first. -/
def starLRun {A : Type} (p : Char → Bool) :
    List Char → Caps → (List Char → Caps → Option A) → Option A
  | [], caps, k => k [] caps
  | s@(c :: rest), caps, k =>
    k s caps <|> (if p c then starLRun p rest caps k else none)

/-- The matcher: try `r` at the head of `s`, calling the continuation `k`
with the remaining subject and captures; alternatives are explored in
Python priority order and the first success wins. -/
def runC {A : Type} : RE → List Char → Caps → (List Char → Caps → Option A) → Option A
  | .eps, s, caps, k => k s caps
  | .eos, s, caps, k => if s.isEmpty then k s caps else none
  | .cls p, s, caps, k =>
    match s with
    | [] => none
    | c :: rest => if p c then k rest caps else none
  | .lit cs, s, caps, k =>
    match dropLit cs s with
    | some rest => k rest caps
    | none => none
  | .seq a b, s, caps, k => runC a s caps (fun s' caps' => runC b s' caps' k)
  | .alt a b, s, caps, k => (runC a s caps k) <|> (runC b s caps k)
  | .opt a, s, caps, k => (runC a s caps k) <|> k s caps
  | .starG p, s, caps, k => starGRun p s caps k
  | .starL p, s, caps, k => starLRun p s caps k
  | .grp n a, s, caps, k =>
    runC a s caps (fun s' caps' =>
      k s' ((n, s.take (s.length - s'.length)) :: caps'))

/-- One full-match attempt anchored at the current position.
Returns `(matched, caps, rest)`. -/
def tryAt (r : RE) (s : List Char) : Option (List Char × Caps × List Char) :=
  runC r s [] (fun s' caps => some (s.take (s.length - s'.length), caps, s'))

/-- A search result: chars before the match, the match, captures, chars after. -/
structure MatchRes where
  pre : List Char
  matched : List Char
  caps : Caps
  post : List Char
  deriving Repr

/-- `re.search`: leftmost position where the pattern matches. -/
def research (r : RE) : List Char → Option MatchRes :=
  go []
where
  go (pre : List Char) (s : List Char) : Option MatchRes :=
    match tryAt r s with
    | some (m, caps, rest) => some ⟨pre, m, caps, rest⟩
    | none =>
      match s with
      | [] => none
      | c :: rest => go (pre ++ [c]) rest

/-- Group lookup: `m.group n` (first entry is the innermost/latest binding;
groups in the transcribed patterns are bound at most once per match). -/
def groupN (caps : Caps) (n : ℕ) : List Char :=
  match caps.find? (fun q => q.1 = n) with
  | some q => q.2
  | none => []

/-- `re.finditer`: successive non-overlapping leftmost matches, with the
absolute start offset of each.  Fuelled by the subject length; all
transcribed patterns match at least one character, so an empty match
(which Python would step over) simply stops the scan. -/
def refinditer (r : RE) (s : List Char) : List (ℕ × List Char × Caps) :=
  go (s.length + 1) 0 s
where
  go : ℕ → ℕ → List Char → List (ℕ × List Char × Caps)
    | 0, _, _ => []
    | fuel + 1, off, s =>
      match research r s with
      | none => []
      | some m =>
        if m.matched.isEmpty then []
        else
          (off + m.pre.length, m.matched, m.caps) ::
            go fuel (off + m.pre.length + m.matched.length) m.post

/-- `re.split(r, s)`: the pieces of `s` between successive matches of `r`. -/
def resplit (r : RE) (s : List Char) : List (List Char) :=
  go (s.length + 1) s
where
  go : ℕ → List Char → List (List Char)
    | 0, s => [s]
    | fuel + 1, s =>
      match research r s with
      | none => [s]
      | some m =>
        if m.matched.isEmpty then [s]
        else m.pre :: go fuel m.post

/-! ### Regex building blocks -/

/-- Sequence a list of pieces. -/
def rseq (l : List RE) : RE := l.foldr RE.seq RE.eps

/-- `x+` over a class (greedy). -/
def rplus (p : Char → Bool) : RE := .seq (.cls p) (.starG p)

/-- `x+?` over a class (lazy). -/
def rplusL (p : Char → Bool) : RE := .seq (.cls p) (.starL p)

/-- Literal from a string. -/
def rlit (s : String) : RE := .lit s.data

/-- `[\d,]` -/
def isDigC (c : Char) : Bool := c.isDigit || c = ','

/-- `[\d.]` -/
def isDigDot (c : Char) : Bool := c.isDigit || c = '.'

/-- `[MKB]` case-insensitive. -/
def isMKB (c : Char) : Bool := c.toLower = 'm' || c.toLower = 'k' || c.toLower = 'b'

/-- `[MK]` case-insensitive. -/
def isMK (c : Char) : Bool := c.toLower = 'm' || c.toLower = 'k'

/-- `\w` (ASCII model). -/
def isWordC (c : Char) : Bool := c.isAlphanum || c = '_'

/-- `.` (any char except newline). -/
def isAnyC (c : Char) : Bool := c ≠ '\n'

/-- `[A-Za-z]` -/
def isAlphaC (c : Char) : Bool := c.isAlpha

/-- `[A-Za-z\s&'.]` (carrier-name class of the part-of patterns). -/
def isCarNameC (c : Char) : Bool :=
  c.isAlpha || isPyWs c || c = '&' || c = '\'' || c = '.'

/-- `[^;]` -/
def isNotSemi (c : Char) : Bool := c ≠ ';'

/-- `[A-Z0-9-]` under `re.IGNORECASE`. -/
def isPolicyC (c : Char) : Bool := c.isAlpha || c.isDigit || c = '-'

/-- `\s*` -/
def rws : RE := .starG isPyWs

/-- `\s+` -/
def rws1 : RE := rplus isPyWs

/-- `\$?` -/
def rdollar : RE := .opt (rlit "$")

/-- `([\d,]+(?:\.\d+)?)` as group `n`. -/
def rnum (n : ℕ) : RE :=
  .grp n (.seq (rplus isDigC) (.opt (.seq (rlit ".") (rplus Char.isDigit))))

/-- `([MKB](?:L)?|MM)` as group `n` — alternation order as in the source. -/
def rsufGrp (n : ℕ) : RE :=
  .grp n (.alt (.seq (.cls isMKB) (.opt (rlit "L"))) (rlit "MM"))

/-- `(?:ex|excess|xs|excess\s+of)` — alternation order as in the source. -/
def rex : RE :=
  .alt (rlit "ex") (.alt (rlit "excess") (.alt (rlit "xs")
    (rseq [rlit "excess", rws1, rlit "of"])))

/-! ## Data model

Python floats are modelled as `ℚ`; spreadsheet cell values as `CellValue`. -/

inductive CellValue where
  | none : CellValue
  | num (q : ℚ) : CellValue
  | str (s : String) : CellValue
  deriving Repr, DecidableEq

/-- Python truthiness of a cell value. -/
def pyTruthy : CellValue → Bool
  | .none => false
  | .num q => q ≠ 0
  | .str s => s ≠ ""

/-- `str(cell)`.  Numeric rendering is modelled as the integer digits for
integral values (Python renders `100` / `100.0`); the exact rendering of
non-integral numbers is irrelevant to every predicate of the source that
consumes it (they all either strip digits or reject digit-and-dot-only
strings), and is modelled by the `num/den` form. -/
def pyStrOf : CellValue → List Char
  | .none => "None".data
  | .num q => if q.den = 1 then (toString q.num).data else (toString q).data
  | .str s => s.data

/-- Python dynamic errors modelled for this development. -/
inductive PyErr where
  | attributeError : PyErr
  | valueError : PyErr
  deriving Repr, DecidableEq

deriving instance DecidableEq for Except

/-! ## Numeric Normalizer: the two `parse_currency` functions -/

/-- The `if/elif` suffix chain of the spreadsheet `parse_currency`: the
multiplier and the suffix-stripped text (`multiplier`, `value_str`). -/
def excelSuffixMS (value0 : List Char) : ℚ × List Char :=
  let upper := upperL value0
  if inPy ['M', 'M'] upper then (1000000, replaceAllL ['M', 'M'] [] upper)
  else if inPy ['B', 'L'] upper then (1000000000, replaceAllL ['B', 'L'] [] upper)
  else if inPy ['B'] upper && ! inPy ['B', 'L'] upper then
    (1000000000, replaceAllL ['B'] [] upper)
  else if inPy ['M'] upper then (1000000, replaceAllL ['M'] [] upper)
  else if inPy ['K'] upper then (1000, replaceAllL ['K'] [] upper)
  else (1, value0)

/-- `excel_parser.parse_currency` (spreadsheet path): strips `$`, `,`
and outer whitespace, picks the multiplier and suffix-stripped text via
`excelSuffixMS`, removes every character other than digits, `.`, `-`,
then parses (0.0 fallback). -/
def excelParseCurrency (value : CellValue) : ℚ :=
  match value with
  | .none => 0
  | .num q => q
  | .str s =>
    let value0 := stripL (replaceAllL [','] [] (replaceAllL ['$'] [] s.data))
    let ms := excelSuffixMS value0
    let cleaned := keepOnly (fun c => c.isDigit || c = '.' || c = '-') ms.2
    if cleaned.isEmpty then 0
    else
      match pyFloat? cleaned with
      | some q => q * ms.1
      | Option.none => 0

/-- The suffix chain of the PDF `parse_currency`: only `M` then `K`. -/
def pdfSuffixMS (clean : List Char) : ℚ × List Char :=
  if inPy ['M'] clean then (1000000, replaceAllL ['M'] [] clean)
  else if inPy ['K'] clean then (1000, replaceAllL ['K'] [] clean)
  else (1, clean)

/-- `pdf_parser.parse_currency` (PDF path) on a string: strips `$`, `,`
and whitespace from the upper-cased text, recognizes only `M` then `K`,
parses (0.0 on `ValueError`). -/
def pdfParseCurrency (s : String) : ℚ :=
  if s.data.isEmpty then 0
  else
    let clean := keepOnly (fun c => !(c == '$' || c == ',' || isPyWs c)) (upperL s.data)
    let ms := pdfSuffixMS clean
    match pyFloat? ms.2 with
    | some q => q * ms.1
    | Option.none => 0

/-- `pdf_parser.parse_currency` as invoked on an arbitrary Python value:
`None` and numeric zero are falsy and return `0.0`; any other number
reaches `value_str.upper()` and raises `AttributeError`. -/
def pdfParseCurrencyV : CellValue → Except PyErr ℚ
  | .none => .ok 0
  | .num q => if q = 0 then .ok 0 else .error .attributeError
  | .str s => .ok (pdfParseCurrency s)

/-! ## Layer Pattern Recognizer (`extract_layer_from_text`) -/

/-- A recognized layer: limit, attachment, primary flag, raw text. -/
structure LayerInfo where
  limit : ℚ
  attachment : ℚ
  is_primary : Bool
  raw_text : String
  deriving Repr, DecidableEq

/-- Pattern 1 of `extract_layer_from_text`:
`\$?([\d,]+(?:\.\d+)?)\s*([MKB](?:L)?|MM)?\s*(?:ex|excess|xs|excess\s+of)\s*\$?([\d,]+(?:\.\d+)?)\s*([MKB](?:L)?|MM)?`. -/
def excessPat : RE :=
  rseq [rdollar, rnum 1, rws, .opt (rsufGrp 2), rws, rex, rws,
        rdollar, rnum 3, rws, .opt (rsufGrp 4)]

/-- `(?:primary|primary\s+layer)`. -/
def rprimary : RE :=
  .alt (rlit "primary") (rseq [rlit "primary", rws1, rlit "layer"])

/-- Pattern 2 of `extract_layer_from_text`:
`\$?([\d,]+(?:\.\d+)?)\s*([MKB](?:L)?|MM)?\s*(?:primary|primary\s+layer)`. -/
def primaryPat : RE :=
  rseq [rdollar, rnum 1, rws, .opt (rsufGrp 2), rws, rprimary]

/-- `(?:terrorism|all\s*risk|property|liability|umbrella|excess)`. -/
def rlayerKwd : RE :=
  .alt (rlit "terrorism") (.alt (rseq [rlit "all", rws, rlit "risk"])
    (.alt (rlit "property") (.alt (rlit "liability")
      (.alt (rlit "umbrella") (rlit "excess")))))

/-- Pattern 3 of `extract_layer_from_text` (anchored at the start):
`^\$?([\d,]+(?:\.\d+)?)\s*([MKB](?:L)?|MM)?\s*(?:terrorism|all\s*risk|property|liability|umbrella|excess)?`. -/
def standalonePat : RE :=
  rseq [rdollar, rnum 1, rws, .opt (rsufGrp 2), rws, .opt rlayerKwd]

/-- The strict bare-amount form of pattern 3:
`^\$[\d,]+(?:\.\d+)?[MKB]?(?:L)?$`. -/
def bareAmountPat : RE :=
  rseq [rlit "$", rplus isDigC, .opt (.seq (rlit ".") (rplus Char.isDigit)),
        .opt (.cls isMKB), .opt (rlit "L"), .eos]

/-- Pattern 4 of `extract_layer_from_text`:
`all\s*risks?\s*(?:ex|excess|xs)?\s*[\w\s]*(?:lead|primary)?`. -/
def allRisksPat : RE :=
  rseq [rlit "all", rws, rlit "risk", .opt (rlit "s"), rws,
        .opt (.alt (rlit "ex") (.alt (rlit "excess") (rlit "xs"))), rws,
        .starG (fun c => isWordC c || isPyWs c),
        .opt (.alt (rlit "lead") (rlit "primary"))]

/-- Layer keywords of pattern 3's precision check. -/
def layerKeywords : List (List Char) :=
  ["terrorism".data, "all risk".data, "property".data, "liability".data,
   "umbrella".data, "excess".data, "primary".data, "lead".data]

/-- `excel_parser.extract_layer_from_text`: ordered cascade — excess,
primary, standalone-with-keyword; the final ALL-RISKS pattern and the
fall-through both return `None` in the source, hence `none` here. -/
def extractLayerFromText (text : String) : Option LayerInfo :=
  if text.data.isEmpty then none
  else
    let t := stripL text.data
    match research excessPat t with
    | some m =>
      some ⟨excelParseCurrency (.str ⟨groupN m.caps 1 ++ groupN m.caps 2⟩),
            excelParseCurrency (.str ⟨groupN m.caps 3 ++ groupN m.caps 4⟩),
            false, ⟨t⟩⟩
    | Option.none =>
    match research primaryPat t with
    | some m =>
      some ⟨excelParseCurrency (.str ⟨groupN m.caps 1 ++ groupN m.caps 2⟩),
            0, true, ⟨t⟩⟩
    | Option.none =>
    match tryAt standalonePat t with
    | some (_, caps, _) =>
      let limit := excelParseCurrency (.str ⟨groupN caps 1 ++ groupN caps 2⟩)
      let lowerT := lowerL t
      let isPrim : Bool :=
        inPy "primary".data lowerT ||
          (decide (limit > 0) && ! inPy "ex".data lowerT && ! inPy "xs".data lowerT)
      if decide (limit > 0) &&
          (layerKeywords.any (fun kw => inPy kw lowerT) ||
            (tryAt bareAmountPat (stripL t)).isSome) then
        some ⟨limit, 0, isPrim, ⟨t⟩⟩
      else
        -- falls through to pattern 4, which returns None whether it
        -- matches (ALL RISKS, amount elsewhere) or not
        none
    | Option.none => none

/-! ## Row Classifier (`is_layer_header_row`, `is_participant_header_row`,
`is_total_row`, `is_skip_row`) -/

/-- Carrier-name indicators that stop a cell from being layer-matched. -/
def carrierIndicators : List (List Char) :=
  ["insurance".data, "company".data, "assurance".data, "underwriter".data,
   "syndicate".data, "lloyds".data, "lloyd's".data, "inc".data,
   "ltd".data, "corp".data]

/-- `(?:ex|excess|xs)`. -/
def rex3 : RE := .alt (rlit "ex") (.alt (rlit "excess") (rlit "xs"))

/-- `\d+[MKB]?(?:L)?\s*(?:ex|excess|xs)\s*\d+[MKB]?` (dollar-less excess). -/
def noDollarExcessPat : RE :=
  rseq [rplus Char.isDigit, .opt (.cls isMKB), .opt (rlit "L"), rws, rex3, rws,
        rplus Char.isDigit, .opt (.cls isMKB)]

/-- `(\d+[MKB]?(?:L)?)` of the `$`-insertion `re.sub` — the only
case-sensitive pattern in the source (no `re.IGNORECASE` flag). -/
def digitTokenPat : RE :=
  rseq [rplus Char.isDigit, .opt (.cls fun c => c = 'M' || c = 'K' || c = 'B'),
        .opt (.cls (· = 'L'))]

/-- `re.sub(r"(\d+[MKB]?(?:L)?)", r"$\1", s)`: a `$` before every match. -/
def subDollarTokens (s : List Char) : List Char :=
  go (s.length + 1) s
where
  go : ℕ → List Char → List Char
    | 0, s => s
    | fuel + 1, s =>
      match research digitTokenPat s with
      | none => s
      | some m =>
        if m.matched.isEmpty then s
        else m.pre ++ '$' :: (m.matched ++ go fuel m.post)

/-- `^all\s*risks?\s*(?:ex|excess|xs)` (anchored). -/
def specialPat1 : RE :=
  rseq [rlit "all", rws, rlit "risk", .opt (rlit "s"), rws, rex3]

/-- `^\$?\d+[MKB]?\s*terrorism` (anchored). -/
def specialPat2 : RE :=
  rseq [rdollar, rplus Char.isDigit, .opt (.cls isMKB), rws, rlit "terrorism"]

/-- `^primary.*(?:all\s*risk|including|flood|eq)` (anchored). -/
def specialPat3 : RE :=
  rseq [rlit "primary", .starG isAnyC,
        .alt (rseq [rlit "all", rws, rlit "risk"])
          (.alt (rlit "including") (.alt (rlit "flood") (rlit "eq")))]

/-- The sibling-cell search of `is_layer_header_row`: the first cell other
than `i` holding a number `≥ 1_000_000`, or a string parsing to
`≥ 1_000_000`. -/
def siblingLimit (row : List CellValue) (i : ℕ) : Option ℚ :=
  go row 0
where
  go : List CellValue → ℕ → Option ℚ
    | [], _ => none
    | v :: rest, j =>
      if j ≠ i ∧ pyTruthy v then
        match v with
        | .num x => if x ≥ 1000000 then some x else go rest (j + 1)
        | .str s =>
          let p := excelParseCurrency (.str s)
          if p ≥ 1000000 then some p else go rest (j + 1)
        | .none => go rest (j + 1)
      else go rest (j + 1)

/-- The body of `is_layer_header_row`'s loop over the first two cells:
`some r` models `return r`, `none` models `continue`. -/
def layerHeaderCell (row : List CellValue) (i : ℕ) : Option (Bool × Option LayerInfo) :=
  match row.get? i with
  | some (.str s) =>
    if s ≠ "" then
      let cellStr := stripL s.data
      let cellLower := lowerL cellStr
      if carrierIndicators.any (fun ind => inPy ind cellLower) then none
      else
        match extractLayerFromText ⟨cellStr⟩ with
        | some info => some (true, some info)
        | Option.none =>
          let viaModified : Option LayerInfo :=
            if (research noDollarExcessPat cellStr).isSome then
              extractLayerFromText ⟨subDollarTokens cellStr⟩
            else none
          match viaModified with
          | some info => some (true, some info)
          | Option.none =>
            if (tryAt specialPat1 cellStr).isSome ∨ (tryAt specialPat2 cellStr).isSome ∨
                (tryAt specialPat3 cellStr).isSome then
              match siblingLimit row i with
              | some lim =>
                some (true, some ⟨lim, 0, inPy "primary".data cellLower, ⟨cellStr⟩⟩)
              | Option.none => some (true, none)
            else none
    else none
  | _ => none

/-- `excel_parser.is_layer_header_row`. -/
def isLayerHeaderRow (row : List CellValue) : Bool × Option LayerInfo :=
  if ¬ row.any pyTruthy then (false, none)
  else
    match layerHeaderCell row 0 with
    | some r => r
    | Option.none =>
      match layerHeaderCell row 1 with
      | some r => r
      | Option.none => (false, none)

/-- The header keyword set of `is_participant_header_row` (a Python set;
iteration order is immaterial because both uses are pure membership or
existence tests). -/
def headerKeywords : List (List Char) :=
  ["participant".data, "line".data, "ppm".data, "premium".data, "fees".data,
   "fee".data, "carrier".data, "share".data, "firm".data, "sl tax".data,
   "surplus".data, "total".data, "rate".data]

/-- `re.sub(r"[^a-z\s]", "", s).strip()` on an already lower-cased text. -/
def cleanAlpha (s : List Char) : List Char :=
  stripL (keepOnly (fun c => ('a' ≤ c ∧ c ≤ 'z') ∨ isPyWs c) s)

/-- Keyword score a single cell contributes in `is_participant_header_row`
(an exact-match cell is counted by both the membership test and the
per-keyword loop, hence scores 2). -/
def headerCellScore (cv : CellValue) : ℕ :=
  if pyTruthy cv then
    let cellText := stripL (lowerL (pyStrOf cv))
    let cellClean := cleanAlpha cellText
    (if headerKeywords.any (fun kw => cellClean = kw) then 1 else 0) +
      (if headerKeywords.any (fun kw =>
          cellClean = kw || startsW cellText (kw ++ [' ']) ||
            startsW cellText (kw ++ ['('])) then 1 else 0)
  else 0

/-- `excel_parser.is_participant_header_row`: at least 3 keyword points. -/
def isParticipantHeaderRow (row : List CellValue) : Bool :=
  if ¬ row.any pyTruthy then false
  else 3 ≤ (row.map headerCellScore).sum

/-- Total-row markers. -/
def totalWords : List (List Char) :=
  ["TOTAL".data, "TOTALS".data, "SUBTOTAL".data, "SUM".data,
   "GRAND TOTAL".data, "LAYER TOTAL".data]

/-- `excel_parser.is_total_row`: one of the first 4 cells equals a marker. -/
def isTotalRow (row : List CellValue) : Bool :=
  (row.take 4).any fun cv =>
    let cellVal := if pyTruthy cv then upperL (stripL (pyStrOf cv)) else []
    totalWords.any (fun w => cellVal = w)

/-- The anchored skip patterns of `is_skip_row` on the lower-cased first
cell: a pure divider, `note(s):`, `comment(s):`, or `see` + whitespace. -/
def skipFirstVal (firstVal : List Char) : Bool :=
  (¬ firstVal.isEmpty ∧
      firstVal.all (fun c => c = '-' || c = '=' || c = '_' || isPyWs c)) ||
    startsW firstVal "note:".data || startsW firstVal "notes:".data ||
    startsW firstVal "comment:".data || startsW firstVal "comments:".data ||
    (startsW firstVal "see".data &&
      match firstVal.drop 3 with
      | c :: _ => isPyWs c
      | [] => false)

/-- `excel_parser.is_skip_row`. -/
def isSkipRow (row : List CellValue) : Bool :=
  if ¬ row.any pyTruthy then true
  else
    let nonEmpty := row.filter (fun v => v ≠ .none ∧ stripL (pyStrOf v) ≠ [])
    if nonEmpty.isEmpty then true
    else
      let firstVal : List Char :=
        match row.head? with
        | some v => if pyTruthy v then lowerL (stripL (pyStrOf v)) else []
        | Option.none => []
      skipFirstVal firstVal

/-! ## Column Mapper (`map_columns`) -/

/-- The column map: semantic role to column index, plus the data start
column (`_data_start_col`); an initial `{}` is all-`none`. -/
structure ColMap where
  carrier : Option ℕ := none
  line : Option ℕ := none
  ppm : Option ℕ := none
  premium : Option ℕ := none
  fees : Option ℕ := none
  sl_tax : Option ℕ := none
  total : Option ℕ := none
  dataStartCol : ℕ := 0
  deriving Repr, DecidableEq

/-- `\$?\d+[mkb]?\s*(?:ex|xs|excess)` of `map_columns`' column-A check. -/
def mapColsStartPat : RE :=
  rseq [rdollar, rplus Char.isDigit, .opt (.cls isMKB), rws,
        .alt (rlit "ex") (.alt (rlit "xs") (rlit "excess"))]

/-- `excel_parser.map_columns`. -/
def mapColumns (row : List CellValue) : ColMap :=
  let startCol : ℕ :=
    match row.head? with
    | some v =>
      if pyTruthy v then
        let firstLower := lowerL (stripL (pyStrOf v))
        if (research mapColsStartPat firstLower).isSome then 1
        else if ¬ (["participant".data, "carrier".data, "firm".data,
              "line".data, "premium".data].any (fun w => firstLower = w)) then
          if ((row.drop 1).take 4).any (fun cv =>
              pyTruthy cv ∧
                ["participant".data, "line".data, "premium".data].any
                  (fun w => stripL (lowerL (pyStrOf cv)) = w)) then 1
          else 0
        else 0
      else 0
    | Option.none => 0
  let step : ColMap → ℕ × CellValue → ColMap := fun cm p =>
    let idx := p.1
    let cv := p.2
    if idx < startCol then cm
    else if ¬ pyTruthy cv then cm
    else
      let cellText := stripL (lowerL (pyStrOf cv))
      let cellClean := cleanAlpha cellText
      if ["participant".data, "participants".data, "carrier".data,
          "carriers".data, "firm".data].any (fun w => cellClean = w) then
        { cm with carrier := some idx }
      else if ["line".data, "lines".data].any (fun w => cellClean = w) then
        { cm with line := some idx }
      else if ["ppm".data, "rate".data].any (fun w => cellClean = w) then
        { cm with ppm := some idx }
      else if ["premium".data, "premiums".data].any (fun w => cellClean = w) then
        { cm with premium := some idx }
      else if ["fee".data, "fees".data].any (fun w => cellClean = w) then
        { cm with fees := some idx }
      else if ["sl tax".data, "sl taxes".data].any (fun w => cellClean = w) then
        { cm with sl_tax := some idx }
      else if inPy "sl".data cellText ∧ inPy "tax".data cellText then
        { cm with sl_tax := some idx }
      else if ["total".data, "totals".data].any (fun w => cellClean = w) then
        { cm with total := some idx }
      else cm
  let cm := row.enum.foldl step {}
  { cm with dataStartCol := startCol }

/-! ## Program data model (layers, carriers, parse results) -/

/-- Risk Bearing Entity (always empty lists in this core's output). -/
structure RBE where
  rbe : String
  share : ℚ
  premium : ℚ
  policy_number : String
  deriving Repr, DecidableEq

/-- A carrier participation record. -/
structure Carrier where
  carrier_name : String
  share : ℚ
  premium : ℚ
  carrier_fee : ℚ
  surplus_fee : ℚ
  policy_number : Option String
  has_multiple_rbes : Bool
  rbes : List RBE
  deriving Repr, DecidableEq

/-- A coverage layer with its carriers. -/
structure ExcelLayer where
  limit : ℚ
  attachment : ℚ
  is_primary : Bool
  carriers : List Carrier
  deriving Repr, DecidableEq

/-- Per-document parse result of the spreadsheet path. -/
structure ExcelParseResult where
  filename : String
  layers : List ExcelLayer
  success : Bool
  error : Option String
  deriving Repr, DecidableEq

/-- Outcome of `load_workbook` on the input bytes: either it raises
(corrupt stream, wrong type) or yields sheets of rows of cells. -/
inductive ExcelInput where
  | corrupt (msg : String) : ExcelInput
  | ok (sheets : List (List (List CellValue))) : ExcelInput

/-! ## Sheet Walker (`parse_excel_program`) -/

/-- Walker state: pending layer, active column map, accumulated layers. -/
structure WalkSt where
  currentLayer : Option ExcelLayer
  colMap : ColMap
  allLayers : List ExcelLayer
  deriving Repr, DecidableEq

/-- Boilerplate names rejected by the Carrier Record Extractor. -/
def skipNames : List (List Char) :=
  ["PARTICIPANT".data, "CARRIER".data, "TOTAL".data, "TOTALS".data,
   "FIRM".data, "INSURER".data, "UNDERWRITER".data, "GRAND TOTAL".data,
   "SUBTOTAL".data, "N/A".data, "TBD".data, "YES".data, "NO".data,
   "Y".data, "N".data, "TRUE".data, "FALSE".data, "LINE".data,
   "PREMIUM".data, "FEES".data, "FEE".data, "PPM".data, "RATE".data,
   "SL TAX".data, "SURPLUS".data]

/-- `^[\$\d,.\-\s%]+$`: the numeric-looking carrier-name rejection. -/
def looksNumericName (s : List Char) : Bool :=
  ¬ s.isEmpty &&
    s.all (fun c =>
      c = '$' || c.isDigit || c = ',' || c = '.' || c = '-' || isPyWs c || c = '%')

/-- Step 5 of the row loop: the Carrier Record Extractor.  `some c` models
appending carrier `c`; `none` models the row being skipped. -/
def extractCarrierFromRow (cl : ExcelLayer) (cm : ColMap) (row : List CellValue) :
    Option Carrier :=
  match cm.carrier with
  | Option.none => none
  | some cidx =>
    match row.get? cidx with
    | Option.none => none
    | some cv =>
      if ¬ pyTruthy cv then none
      else
        let carrierName := stripL (pyStrOf cv)
        if carrierName.isEmpty ∨ skipNames.any (fun w => upperL carrierName = w) then
          none
        else if (stripL carrierName).length < 3 then none
        else if looksNumericName (stripL carrierName) then none
        else
          let getAmt : Option ℕ → ℚ := fun oidx =>
            match oidx with
            | some i =>
              if i < row.length then excelParseCurrency ((row.get? i).getD .none)
              else 0
            | Option.none => 0
          let lineAmount := getAmt cm.line
          let premium0 := getAmt cm.premium
          let premium := if premium0 = 0 then getAmt cm.total else premium0
          let carrierFee := getAmt cm.fees
          let surplusFee := getAmt cm.sl_tax
          let layerLimit := cl.limit
          let share : ℚ :=
            if layerLimit > 0 ∧ lineAmount > 0 then lineAmount / layerLimit else 0
          if ¬ carrierName.isEmpty ∧ (lineAmount > 0 ∨ premium > 0) then
            some ⟨⟨carrierName⟩, share, premium, carrierFee, surplusFee, some "", false, []⟩
          else none

/-- One row of the Sheet Walker (the body of `parse_excel_program`'s row
loop): skip/total checks, then the LayerHeader update, then — on the same
row — the ColumnHeader check, then carrier extraction.  Returns the next
state and the debug log lines for the row (empty unless `debug`). -/
def stepRow (debug : Bool) (st : WalkSt) (row : List CellValue) :
    WalkSt × List String :=
  if ¬ row.any pyTruthy then (st, [])
  else if isSkipRow row then (st, if debug then ["skip row"] else [])
  else if isTotalRow row then (st, if debug then ["total row"] else [])
  else
    let lh := isLayerHeaderRow row
    let st1 :=
      if lh.1 then
        let flushed :=
          match st.currentLayer with
          | some cl =>
            if ¬ cl.carriers.isEmpty then st.allLayers ++ [cl] else st.allLayers
          | Option.none => st.allLayers
        let newCur : Option ExcelLayer :=
          match lh.2 with
          | some info => some ⟨info.limit, info.attachment, info.is_primary, []⟩
          | Option.none => Option.none
        { st with allLayers := flushed, currentLayer := newCur }
      else st
    let lhLog : List String := if debug && lh.1 then ["layer header"] else []
    if isParticipantHeaderRow row then
      ({ st1 with colMap := mapColumns row },
        lhLog ++ if debug then ["participant header"] else [])
    else
      match st1.currentLayer, st1.colMap.carrier with
      | some cl, some _ =>
        match extractCarrierFromRow cl st1.colMap row with
        | some c =>
          ({ st1 with currentLayer := some { cl with carriers := cl.carriers ++ [c] } },
            lhLog ++ if debug then ["added carrier " ++ c.carrier_name] else [])
        | Option.none => (st1, lhLog)
      | _, _ => (st1, lhLog)

/-- One sheet: pending layer and column map are reset at the top of each
sheet (as in the source, where both are (re)bound inside the sheet loop);
accumulated layers persist. -/
def walkSheet (debug : Bool) (st : WalkSt) (rows : List (List CellValue)) :
    WalkSt × List String :=
  rows.foldl (fun p row =>
      let q := stepRow debug p.1 row
      (q.1, p.2 ++ q.2))
    ({ st with currentLayer := Option.none, colMap := {} }, [])

/-- All sheets of the workbook, in order. -/
def walkSheets (debug : Bool) (sheets : List (List (List CellValue))) :
    WalkSt × List String :=
  sheets.foldl (fun p sheet =>
      let q := walkSheet debug p.1 sheet
      (q.1, p.2 ++ q.2))
    (⟨Option.none, {}, []⟩, [])

/-- The flush after the sheet loop (`# Add last layer if exists`): only
the last sheet's pending layer is still bound there. -/
def finalLayers (st : WalkSt) : List ExcelLayer :=
  match st.currentLayer with
  | some cl => if ¬ cl.carriers.isEmpty then st.allLayers ++ [cl] else st.allLayers
  | Option.none => st.allLayers

/-- The exact-entry test (same name, shares within `0.0001`). -/
def sameCarrierEntry (a b : Carrier) : Bool :=
  a.carrier_name = b.carrier_name && |a.share - b.share| < (1 : ℚ) / 10000

/-- The per-document carrier dedup (no summing): skip if an exact entry
already exists, else append. -/
def dedupAppend (existing : List Carrier) (c : Carrier) : List Carrier :=
  if existing.any (fun e => sameCarrierEntry e c) then existing
  else existing ++ [c]

/-- One layer folded into the dedup dictionary: the (unique) bucket with
the same `(limit, attachment)` key collects the carriers, a missing key
appends a fresh bucket (insertion order, as a Python dict). -/
def dedupStep (l : ExcelLayer) : List ExcelLayer → List ExcelLayer
  | [] => [{ limit := l.limit, attachment := l.attachment,
             is_primary := l.is_primary,
             carriers := l.carriers.foldl dedupAppend [] }]
  | b :: rest =>
    if b.limit = l.limit ∧ b.attachment = l.attachment then
      { b with carriers := l.carriers.foldl dedupAppend b.carriers } :: rest
    else b :: dedupStep l rest

/-- The per-document layer dedup of `parse_excel_program`: buckets keyed
by `(limit, attachment)` in first-seen order; carriers deduped. -/
def dedupLayers (ls : List ExcelLayer) : List ExcelLayer :=
  ls.foldl (fun acc l => dedupStep l acc) []

/-- Stable insertion into a list sorted by attachment (ties keep the
earlier element first, as Python's stable `sorted`). -/
def insSorted (x : ExcelLayer) : List ExcelLayer → List ExcelLayer
  | [] => [x]
  | y :: ys => if x.attachment ≤ y.attachment then x :: y :: ys else y :: insSorted x ys

/-- `sorted(..., key=attachment)` (stable). -/
def sortByAttachment : List ExcelLayer → List ExcelLayer
  | [] => []
  | x :: xs => insSorted x (sortByAttachment xs)

/-- `excel_parser.parse_excel_program`: the per-document spreadsheet
parse.  A `load_workbook` failure is caught and reported as
`success := false` with the message; otherwise the Sheet Walker runs over
all sheets, the pending layer is flushed, buckets are deduplicated and
sorted by attachment.  Returns the result and the debug trace. -/
def parseExcelProgram (input : ExcelInput) (filename : String) (debug : Bool) :
    ExcelParseResult × List String :=
  match input with
  | .corrupt msg => (⟨filename, [], false, some msg⟩, [])
  | .ok sheets =>
    let w := walkSheets debug sheets
    (⟨filename, sortByAttachment (dedupLayers (finalLayers w.1)), true, Option.none⟩,
      w.2 ++ if debug then ["parse complete"] else [])

/-! ## Merge & Dedup Engine, spreadsheet path (`merge_excel_programs`) -/

/-- The carrier merge of `merge_excel_programs`: the first exact duplicate
(same name, share within `0.0001`) absorbs premium and fees; otherwise
the carrier is appended. -/
def mergeCarrierExcel (existing : List Carrier) (c : Carrier) : List Carrier :=
  go existing
where
  go : List Carrier → List Carrier
    | [] => [c]
    | e :: rest =>
      if sameCarrierEntry e c then
        { e with premium := e.premium + c.premium,
                 carrier_fee := e.carrier_fee + c.carrier_fee,
                 surplus_fee := e.surplus_fee + c.surplus_fee } :: rest
      else e :: go rest

/-- Merged program fragment. -/
structure MergedProgram where
  layers : List ExcelLayer
  documents_processed : ℕ
  documents_failed : ℕ
  deriving Repr, DecidableEq

/-- One layer folded into the bucket dictionary (key `(limit, attachment)`,
first-seen order, as a Python dict). -/
def mergeLayerExcel (acc : List ExcelLayer) (l : ExcelLayer) : List ExcelLayer :=
  go acc
where
  go : List ExcelLayer → List ExcelLayer
    | [] => [⟨l.limit, l.attachment, l.is_primary, l.carriers.foldl mergeCarrierExcel []⟩]
    | b :: rest =>
      if b.limit = l.limit ∧ b.attachment = l.attachment then
        { b with carriers := l.carriers.foldl mergeCarrierExcel b.carriers } :: rest
      else b :: go rest

/-- `excel_parser.merge_excel_programs`. -/
def mergeExcelPrograms (docs : List ExcelParseResult) : MergedProgram :=
  let dict := docs.foldl
    (fun acc d => if d.success then d.layers.foldl mergeLayerExcel acc else acc) []
  ⟨sortByAttachment dict,
   (docs.filter (fun d => d.success)).length,
   (docs.filter (fun d => ¬ d.success)).length⟩

/-! ## Free-Text Extractor (PDF path, `pdf_parser.py`) -/

/-- `([\d,]+(?:\.\d+)?[MK]?)` as group `n` (the PDF amount group). -/
def rnumMK (n : ℕ) : RE :=
  .grp n (rseq [rplus isDigC, .opt (.seq (rlit ".") (rplus Char.isDigit)),
                .opt (.cls isMK)])

/-- `\$?[\d,]+(?:\.\d+)?[MK]?` without a group. -/
def rnumMKn : RE :=
  rseq [rplus isDigC, .opt (.seq (rlit ".") (rplus Char.isDigit)),
        .opt (.cls isMK)]

/-- `(?:excess\s+of|xs|x/s)` — alternation order as in the source. -/
def rexcessPdf : RE :=
  .alt (rseq [rlit "excess", rws1, rlit "of"]) (.alt (rlit "xs") (rlit "x/s"))

/-- Pattern 1 of `extract_limit_patterns`:
`\$?[\d,]+(?:\.\d+)?[MK]?\s*(?:excess\s+of|xs|x/s)\s*\$?[\d,]+(?:\.\d+)?[MK]?`. -/
def pdfExcessPat : RE :=
  rseq [rdollar, rnumMKn, rws, rexcessPdf, rws, rdollar, rnumMKn]

/-- The split delimiter `excess\s+of|xs|x/s` of `re.split`. -/
def pdfSplitPat : RE :=
  .alt (rseq [rlit "excess", rws1, rlit "of"]) (.alt (rlit "xs") (rlit "x/s"))

/-- Pattern 2 of `extract_limit_patterns`:
`\$?[\d,]+(?:\.\d+)?[MK]?\s*(?:primary|primary\s+layer)`. -/
def pdfPrimaryPat : RE := rseq [rdollar, rnumMKn, rws, rprimary]

/-- `[:\s]` -/
def isColonWs (c : Char) : Bool := c = ':' || isPyWs c

/-- Pattern 3 of `extract_limit_patterns`:
`(?:limit|coverage)[:\s]+\$?[\d,]+(?:\.\d+)?[MK]?`. -/
def pdfLimitPat : RE :=
  rseq [.alt (rlit "limit") (rlit "coverage"), rplus isColonWs, rdollar, rnumMKn]

/-- `(?:attachment|retention)[:\s]+\$?[\d,]+(?:\.\d+)?[MK]?`. -/
def pdfAttachPat : RE :=
  rseq [.alt (rlit "attachment") (rlit "retention"), rplus isColonWs, rdollar, rnumMKn]

/-- The last piece of Python's `s.split(sep)` for a one-char separator. -/
def splitLastPiece (sep : Char) (s : List Char) : List Char :=
  (s.reverse.takeWhile (fun c => c ≠ sep)).reverse

/-- `pdf_parser.extract_limit_patterns`: excess pairs (split on the
delimiter), primary mentions, and `limit:`/`coverage:` with a nearby
attachment in a ±100-character context window. -/
def extractLimitPatterns (text : String) : List LayerInfo :=
  let t := text.data
  let excess :=
    (refinditer pdfExcessPat t).foldl
      (fun acc m =>
        let parts := resplit pdfSplitPat m.2.1
        match parts with
        | [a, b] =>
          acc ++ [⟨pdfParseCurrency ⟨stripL a⟩, pdfParseCurrency ⟨stripL b⟩,
                   false, ⟨stripL m.2.1⟩⟩]
        | _ => acc) []
  let primary :=
    (refinditer pdfPrimaryPat t).foldl
      (fun acc m =>
        let limit := pdfParseCurrency ⟨m.2.1⟩
        if limit > 0 then
          acc ++ [⟨limit, 0, true, ⟨stripL m.2.1⟩⟩]
        else acc) []
  let limitMentions :=
    (refinditer pdfLimitPat t).foldl
      (fun acc m =>
        let mt := m.2.1
        let limit := pdfParseCurrency ⟨stripL (splitLastPiece ':' mt)⟩
        if limit > 0 then
          let start := m.1
          let stop := m.1 + mt.length
          let ctx := (t.take (stop + 100)).drop (start - 100)
          let attach :=
            match research pdfAttachPat ctx with
            | some am => pdfParseCurrency ⟨stripL (splitLastPiece ':' am.matched)⟩
            | Option.none => 0
          acc ++ [⟨limit, attach, attach = 0, ⟨stripL mt⟩⟩]
        else acc) []
  excess ++ primary ++ limitMentions

/-- A carrier-specific "part of" allocation. -/
structure PartOf where
  carrier_name : String
  carrier_limit : ℚ
  share : ℚ
  layer_limit : ℚ
  attachment : ℚ
  is_primary : Bool
  raw_text : String
  deriving Repr, DecidableEq

/-- `([A-Za-z][A-Za-z\s&\'.]+?)(?:Limits?)?:\s*` — the carrier-name head
of the named part-of patterns (lazy name, optional `Limit(s)`, colon). -/
def rcarrierHead : RE :=
  rseq [.grp 1 (.seq (.cls isAlphaC) (rplusL isCarNameC)),
        .opt (.seq (rlit "Limit") (.opt (rlit "s"))), rlit ":", rws]

/-- `that\s+being\s+([\d.]+)%[^;]*?;\s*part\s+of\s+` with the given
percent group. -/
def rthatBeing (n : ℕ) : RE :=
  rseq [rlit "that", rws1, rlit "being", rws1, .grp n (rplus isDigDot),
        rlit "%", .starL isNotSemi, rlit ";", rws,
        rlit "part", rws1, rlit "of", rws1]

/-- `\((?:being\s+)?([\d.]+)%\)\s*part\s+of\s+` with the given group. -/
def rparenPct (n : ℕ) : RE :=
  rseq [rlit "(", .opt (.seq (rlit "being") rws1), .grp n (rplus isDigDot),
        rlit "%", rlit ")", rws, rlit "part", rws1, rlit "of", rws1]

/-- Pattern 1 of `extract_part_of_patterns` (named, `that being`). -/
def pofPat1 : RE :=
  rseq [rcarrierHead, rdollar, rnumMK 2, rws1, rthatBeing 3,
        rdollar, rnumMK 4, rws, rexcessPdf, rws, rdollar, rnumMK 5]

/-- Pattern 2 of `extract_part_of_patterns` (named, parenthetical). -/
def pofPat2 : RE :=
  rseq [rcarrierHead, rdollar, rnumMK 2, rws, rparenPct 3,
        rdollar, rnumMK 4, rws, rexcessPdf, rws, rdollar, rnumMK 5]

/-- Pattern 3 (carrier-less, `that being`). -/
def pofPat3 : RE :=
  rseq [rdollar, rnumMK 1, rws1, rthatBeing 2,
        rdollar, rnumMK 3, rws, rexcessPdf, rws, rdollar, rnumMK 4]

/-- Pattern 4 (carrier-less, parenthetical). -/
def pofPat4 : RE :=
  rseq [rdollar, rnumMK 1, rws, rparenPct 2,
        rdollar, rnumMK 3, rws, rexcessPdf, rws, rdollar, rnumMK 4]

/-- Pattern 5 (named, `that being`, primary tail). -/
def pofPat5 : RE :=
  rseq [rcarrierHead, rdollar, rnumMK 2, rws1, rthatBeing 3,
        rdollar, rnumMK 4, rws, rprimary]

/-- Pattern 6 (named, parenthetical, primary tail). -/
def pofPat6 : RE :=
  rseq [rcarrierHead, rdollar, rnumMK 2, rws, rparenPct 3,
        rdollar, rnumMK 4, rws, rprimary]

/-- `float(...)` of a percent group: `ValueError` on failure. -/
def pyFloatE (s : List Char) : Except PyErr ℚ :=
  match pyFloat? s with
  | some q => .ok q
  | none => .error .valueError

/-- An `Except`-threaded left fold (Python: the first raise aborts). -/
def foldE {α β : Type} (f : β → α → Except PyErr β) : List α → β → Except PyErr β
  | [], acc => .ok acc
  | x :: xs, acc =>
    match f acc x with
    | .ok acc' => foldE f xs acc'
    | .error e => .error e

/-- The containment test of patterns 3 and 4, exactly as coded:
`any(r["raw_text"] in match.group(0) for r in results)` — note the
direction: an already-collected raw text inside the *new* match. -/
def pofAlreadyCaptured (results : List PartOf) (matched : List Char) : Bool :=
  results.any (fun r => inPy r.raw_text.data matched)

/-- `pdf_parser.extract_part_of_patterns`: six pattern families evaluated
in source order (named `that being`, named parenthetical, carrier-less
`that being`, carrier-less parenthetical, named primary `that being`,
named primary parenthetical); carrier-less matches are skipped when
`pofAlreadyCaptured`; `float` of a malformed percent raises. -/
def extractPartOfPatterns (text : String) : Except PyErr (List PartOf) :=
  let t := text.data
  let named : Bool → RE → List PartOf → Except PyErr (List PartOf) :=
    fun primary pat acc =>
      foldE (fun res m => do
          let pct ← pyFloatE (groupN m.2.2 3)
          let tail : PartOf :=
            { carrier_name := ⟨stripL (groupN m.2.2 1)⟩
              carrier_limit := pdfParseCurrency ⟨groupN m.2.2 2⟩
              share := pct / 100
              layer_limit := pdfParseCurrency ⟨groupN m.2.2 4⟩
              attachment := if primary then 0 else pdfParseCurrency ⟨groupN m.2.2 5⟩
              is_primary := primary
              raw_text := ⟨stripL m.2.1⟩ }
          pure (res ++ [tail]))
        (refinditer pat t) acc
  let carrierless : RE → List PartOf → Except PyErr (List PartOf) :=
    fun pat acc =>
      foldE (fun res m =>
          if pofAlreadyCaptured res m.2.1 then pure res
          else do
            let pct ← pyFloatE (groupN m.2.2 2)
            let tail : PartOf :=
              { carrier_name := "Unknown Carrier"
                carrier_limit := pdfParseCurrency ⟨groupN m.2.2 1⟩
                share := pct / 100
                layer_limit := pdfParseCurrency ⟨groupN m.2.2 3⟩
                attachment := pdfParseCurrency ⟨groupN m.2.2 4⟩
                is_primary := false
                raw_text := ⟨stripL m.2.1⟩ }
            pure (res ++ [tail]))
        (refinditer pat t) acc
  do
    let r1 ← named false pofPat1 []
    let r2 ← named false pofPat2 r1
    let r3 ← carrierless pofPat3 r2
    let r4 ← carrierless pofPat4 r3
    let r5 ← named true pofPat5 r4
    named true pofPat6 r5

/-- A plain carrier/share pair found by `extract_carrier_info`. -/
structure PdfCarrier where
  carrier_name : String
  share : ℚ
  premium : ℚ
  raw_text : String
  deriving Repr, DecidableEq

/-- `(\d+(?:\.\d+)?)\s*%` (the percentage search). -/
def pctPat : RE :=
  rseq [.grp 1 (.seq (rplus Char.isDigit)
          (.opt (.seq (rlit ".") (rplus Char.isDigit)))), rws, rlit "%"]

/-- `^(.+?)[\s-]*\d+(?:\.\d+)?\s*%` (carrier name before the percentage). -/
def carrierNamePat : RE :=
  rseq [.grp 1 (rplusL isAnyC), .starG (fun c => isPyWs c || c = '-'),
        rplus Char.isDigit, .opt (.seq (rlit ".") (rplus Char.isDigit)),
        rws, rlit "%"]

/-- `(?:premium|prem)[:\s]+\$?[\d,]+(?:\.\d+)?`. -/
def premiumPat : RE :=
  rseq [.alt (rlit "premium") (rlit "prem"), rplus isColonWs, rdollar,
        rplus isDigC, .opt (.seq (rlit ".") (rplus Char.isDigit))]

/-- Carrier keywords of `extract_carrier_info`. -/
def pdfCarrierKeywords : List (List Char) :=
  ["insurance".data, "assurance".data, "indemnity".data, "underwriters".data,
   "syndicate".data, "lloyd".data, "mutual".data, "casualty".data, "risk".data]

/-- Python `s.split()` (split on whitespace runs, no empty pieces). -/
def pySplitWs (s : List Char) : List (List Char) :=
  let step : List (List Char) × List Char → Char → List (List Char) × List Char :=
    fun acc c =>
      if isPyWs c then
        match acc.2 with
        | [] => (acc.1, [])
        | w => (acc.1 ++ [w.reverse], [])
      else (acc.1, c :: acc.2)
  let r := s.foldl step ([], [])
  match r.2 with
  | [] => r.1
  | w => r.1 ++ [w.reverse]

/-- Python `text.split("\n")`. -/
def splitNl (s : List Char) : List (List Char) :=
  go (s.length + 1) s
where
  go : ℕ → List Char → List (List Char)
    | 0, s => [s]
    | fuel + 1, s =>
      let pre := s.takeWhile (fun c => c ≠ '\n')
      let rest := s.dropWhile (fun c => c ≠ '\n')
      match rest with
      | [] => [pre]
      | _ :: tl => pre :: go fuel tl

/-- `pdf_parser.extract_carrier_info` on one line, given its context
(2 lines before through 2 lines after): `some` is an appended record. -/
def carrierInfoLine (line : List Char) (ctx : List (List Char)) :
    Except PyErr (Option PdfCarrier) :=
  match research pctPat line with
  | Option.none => .ok Option.none
  | some pm =>
    let lineLower := lowerL line
    let hasKw := pdfCarrierKeywords.any (fun kw => inPy kw lineLower)
    if hasKw ∨ (pySplitWs line).length > 2 then
      match tryAt carrierNamePat line with
      | Option.none => .ok Option.none
      | some (_, caps, _) => do
        let pv ← pyFloatE (groupN pm.caps 1)
        let premium : ℚ :=
          match ctx.findSome? (fun cl =>
              match research premiumPat cl with
              | some m => some (pdfParseCurrency ⟨m.matched⟩)
              | Option.none => Option.none) with
          | some p => p
          | Option.none => 0
        pure (some ⟨⟨stripL (groupN caps 1)⟩, pv / 100, premium, ⟨stripL line⟩⟩)
    else .ok Option.none

/-- `pdf_parser.extract_carrier_info`: per-line scan with ±2-line context. -/
def extractCarrierInfo (text : String) : Except PyErr (List PdfCarrier) :=
  let lines := splitNl text.data
  let idx := lines.enum
  foldE (fun acc p => do
      let ctx := (lines.take (p.1 + 3)).drop (p.1 - 2)
      let r ← carrierInfoLine p.2 ctx
      match r with
      | some c => pure (acc ++ [c])
      | Option.none => pure acc)
    idx []

/-- One policy-number pattern: `(?:<kind>\s+(?:no|number|#))[:\s]+([A-Z0-9-]+)`. -/
def policyPat (kind : String) : RE :=
  rseq [rlit kind, rws1, .alt (rlit "no") (.alt (rlit "number") (rlit "#")),
        rplus isColonWs, .grp 1 (rplus isPolicyC)]

/-- `pdf_parser.extract_policy_number`: first of policy / certificate /
binder patterns. -/
def extractPolicyNumber (text : String) : Option String :=
  let t := text.data
  match research (policyPat "policy") t with
  | some m => some ⟨stripL (groupN m.caps 1)⟩
  | Option.none =>
    match research (policyPat "certificate") t with
    | some m => some ⟨stripL (groupN m.caps 1)⟩
    | Option.none =>
      match research (policyPat "binder") t with
      | some m => some ⟨stripL (groupN m.caps 1)⟩
      | Option.none => Option.none

/-- Document type classification: keyword presence, first match wins. -/
def pdfDocType (text : String) : String :=
  let lower := lowerL text.data
  if inPy "quote".data lower then "Quote"
  else if inPy "binder".data lower then "Binder"
  else if inPy "policy".data lower then "Policy"
  else if inPy "certificate".data lower then "Certificate"
  else "Unknown"

/-- Outcome of `extract_text_from_pdf` on the input bytes: either the
extraction raises (re-raised as `Error extracting PDF text: …`), or the
whole document text. -/
inductive PdfInput where
  | corrupt (msg : String) : PdfInput
  | ok (text : String) : PdfInput

/-- Per-document parse result of the PDF path.  On failure the source
dict carries only `filename/success/error/limits/carriers`; the remaining
fields are modelled as `none`/`[]` there. -/
structure PdfParseResult where
  filename : String
  document_type : Option String
  policy_number : Option String
  limits : List LayerInfo
  carriers : List PdfCarrier
  part_of_data : List PartOf
  raw_text_head : Option String
  success : Bool
  error : Option String
  deriving Repr, DecidableEq

/-- Abstracted `str(e)` of the caught exception (the claims only rely on
the message being non-null). -/
def pyErrMsg : PyErr → String
  | .attributeError => "AttributeError"
  | .valueError => "could not convert string to float"

/-- `pdf_parser.parse_insurance_pdf`: extraction families in source order
(part-of, limits, carriers, policy number, document type); any raise is
caught and reported as a failure result. -/
def parseInsurancePdf (input : PdfInput) (filename : String) : PdfParseResult :=
  match input with
  | .corrupt msg =>
    ⟨filename, none, none, [], [], [], none, false,
      some ("Error extracting PDF text: " ++ msg)⟩
  | .ok text =>
    match extractPartOfPatterns text with
    | .error e => ⟨filename, none, none, [], [], [], none, false, some (pyErrMsg e)⟩
    | .ok pofs =>
      let limits := extractLimitPatterns text
      match extractCarrierInfo text with
      | .error e => ⟨filename, none, none, [], [], [], none, false, some (pyErrMsg e)⟩
      | .ok carriers =>
        ⟨filename, some (pdfDocType text), extractPolicyNumber text,
          limits, carriers, pofs, some ⟨text.data.take 1000⟩, true, none⟩

/-! ## Merge & Dedup Engine, PDF path (`merge_parsed_documents`) -/

/-- A part-of allocation folded into a bucket's carrier list: matched by
name only; a match absorbs `carrier_limit` into `premium`, otherwise a
new carrier record is appended. -/
def pofCarrierMerge (existing : List Carrier) (p : PartOf) (pn : Option String) :
    List Carrier :=
  go existing
where
  go : List Carrier → List Carrier
    | [] => [⟨p.carrier_name, p.share, p.carrier_limit, 0, 0, pn, false, []⟩]
    | e :: rest =>
      if e.carrier_name = p.carrier_name then
        { e with premium := e.premium + p.carrier_limit } :: rest
      else e :: go rest

/-- PRIORITY 1 of `merge_parsed_documents`: one part-of allocation, into
the bucket keyed `(layer_limit, attachment)`. -/
def insertPartOf (acc : List ExcelLayer) (pn : Option String) (p : PartOf) :
    List ExcelLayer :=
  go acc
where
  go : List ExcelLayer → List ExcelLayer
    | [] => [⟨p.layer_limit, p.attachment, p.is_primary, pofCarrierMerge [] p pn⟩]
    | b :: rest =>
      if b.limit = p.layer_limit ∧ b.attachment = p.attachment then
        { b with carriers := pofCarrierMerge b.carriers p pn } :: rest
      else b :: go rest

/-- A plain carrier folded into a bucket's carrier list (name match sums
premium, else append). -/
def pdfCarrierStep (pn : Option String) (existing : List Carrier) (pc : PdfCarrier) :
    List Carrier :=
  go existing
where
  go : List Carrier → List Carrier
    | [] => [⟨pc.carrier_name, pc.share, pc.premium, 0, 0, pn, false, []⟩]
    | e :: rest =>
      if e.carrier_name = pc.carrier_name then
        { e with premium := e.premium + pc.premium } :: rest
      else e :: go rest

/-- PRIORITY 2 of `merge_parsed_documents`: one plain limit; the
document's carriers are attached only if the bucket has none yet. -/
def insertLimit (acc : List ExcelLayer) (d : PdfParseResult) (li : LayerInfo) :
    List ExcelLayer :=
  go acc
where
  fill (cs : List Carrier) : List Carrier :=
    if cs.isEmpty then d.carriers.foldl (pdfCarrierStep d.policy_number) cs else cs
  go : List ExcelLayer → List ExcelLayer
    | [] => [⟨li.limit, li.attachment, li.is_primary, fill []⟩]
    | b :: rest =>
      if b.limit = li.limit ∧ b.attachment = li.attachment then
        { b with carriers := fill b.carriers } :: rest
      else b :: go rest

/-- `pdf_parser.merge_parsed_documents`. -/
def mergeParsedDocuments (docs : List PdfParseResult) : MergedProgram :=
  let dict := docs.foldl
    (fun acc d =>
      if d.success then
        let acc1 := d.part_of_data.foldl (fun a p => insertPartOf a d.policy_number p) acc
        d.limits.foldl (fun a li => insertLimit a d li) acc1
      else acc)
    []
  ⟨sortByAttachment dict,
   (docs.filter (fun d => d.success)).length,
   (docs.filter (fun d => ¬ d.success)).length⟩

/-! ## Claim-side helper definitions and lemmas -/

/-- The dollar/comma/whitespace-stripped input of the spreadsheet
normalizer (`value_str` before upper-casing). -/
def excelCleanInput (s : String) : List Char :=
  stripL (replaceAllL [','] [] (replaceAllL ['$'] [] s.data))

/-- Its upper-casing (`upper_str`). -/
def excelUpper (s : String) : List Char := upperL (excelCleanInput s)

/-- The multiplier the spreadsheet normalizer selects. -/
def excelMultiplier (s : String) : ℚ := (excelSuffixMS (excelCleanInput s)).1

/-- The text left after the selected suffix is stripped. -/
def excelSuffixStripped (s : String) : List Char :=
  (excelSuffixMS (excelCleanInput s)).2

/-- The cleaned remainder the spreadsheet normalizer finally parses. -/
def excelRemainder (s : String) : List Char :=
  keepOnly (fun c => c.isDigit || c = '.' || c = '-') (excelSuffixStripped s)

/-- "Parse the remainder and return it, `0.0` on empty or unparseable". -/
def numericRemainder (t : List Char) : ℚ :=
  if t.isEmpty then 0 else (pyFloat? t).getD 0

/-- The final parse-and-multiply step, factored. -/
theorem tailFactor (u : List Char) (m : ℚ) :
    (if u.isEmpty then (0 : ℚ)
     else match pyFloat? u with
       | some q => q * m
       | none => 0) = numericRemainder u * m := by
  unfold numericRemainder
  by_cases he : u.isEmpty
  · simp [he]
  · simp only [he, if_false]
    cases hpf : pyFloat? u <;> simp [hpf]

/-- The spreadsheet normalizer, factored as remainder × multiplier. -/
theorem excelParseCurrency_str (s : String) :
    excelParseCurrency (.str s) =
      numericRemainder (excelRemainder s) * excelMultiplier s :=
  tailFactor _ _

/-- The cleaned input of the PDF normalizer (`clean_str`). -/
def pdfClean (s : String) : List Char :=
  keepOnly (fun c => !(c == '$' || c == ',' || isPyWs c)) (upperL s.data)

/-- `float` with the 0.0 fallback of the PDF normalizer. -/
def pdfRemainder (t : List Char) : ℚ := (pyFloat? t).getD 0

/-- Multiplier chosen by the PDF normalizer. -/
def pdfMultiplier (s : String) : ℚ := (pdfSuffixMS (pdfClean s)).1

/-- Text the PDF normalizer finally parses. -/
def pdfStripped (s : String) : List Char := (pdfSuffixMS (pdfClean s)).2

/-- The final step of the PDF normalizer, factored. -/
theorem tailFactorPdf (u : List Char) (m : ℚ) :
    (match pyFloat? u with
      | some q => q * m
      | none => (0 : ℚ)) = pdfRemainder u * m := by
  unfold pdfRemainder
  cases hpf : pyFloat? u <;> simp [hpf]

/-- The PDF normalizer, factored as remainder × multiplier. -/
theorem pdfParseCurrency_eq (s : String) :
    pdfParseCurrency s =
      if s.data.isEmpty then 0
      else pdfRemainder (pdfStripped s) * pdfMultiplier s := by
  unfold pdfParseCurrency pdfStripped pdfMultiplier pdfClean
  by_cases he : s.data.isEmpty
  · simp [he]
  · simp only [he, if_false]
    exact tailFactorPdf _ _

/-! ## Claim C1 -/

/-- C1 counterexample: the claim asserts the `MM`/`BL`/`B`/`M`/`K`
precedence for `parse_currency` on *both* paths, in particular that an
input containing `BL` is multiplied by one billion.  On the PDF path
`parse_currency` recognizes only `M` and `K`: `"1BL"` parses to `0.0`
there (the remainder `1BL` fails `float`), not to `1 × 10⁹`. -/
theorem C1_counterexample :
    pdfParseCurrency "1BL" = 0 ∧ (0 : ℚ) ≠ 1 * 1000000000 := by
  constructor
  · decide
  · norm_num

/-- C1 (amended): on the spreadsheet path `parse_currency` picks the
multiplier by the precedence `MM` (×10⁶) → `BL` (×10⁹) → `B` (×10⁹) →
`M` (×10⁶) → `K` (×10³) → none (×1), first match wins, case-insensitively
on the cleaned text, and returns the cleaned remainder times that
multiplier; the PDF path recognizes only `M` (×10⁶) then `K` (×10³). -/
theorem C1_amended (s : String) :
    (inPy ['M', 'M'] (excelUpper s) = true → excelMultiplier s = 1000000)
  ∧ (inPy ['M', 'M'] (excelUpper s) = false → inPy ['B', 'L'] (excelUpper s) = true →
      excelMultiplier s = 1000000000)
  ∧ (inPy ['M', 'M'] (excelUpper s) = false → inPy ['B', 'L'] (excelUpper s) = false →
      inPy ['B'] (excelUpper s) = true → excelMultiplier s = 1000000000)
  ∧ (inPy ['M', 'M'] (excelUpper s) = false → inPy ['B', 'L'] (excelUpper s) = false →
      inPy ['B'] (excelUpper s) = false → inPy ['M'] (excelUpper s) = true →
      excelMultiplier s = 1000000)
  ∧ (inPy ['M', 'M'] (excelUpper s) = false → inPy ['B', 'L'] (excelUpper s) = false →
      inPy ['B'] (excelUpper s) = false → inPy ['M'] (excelUpper s) = false →
      inPy ['K'] (excelUpper s) = true → excelMultiplier s = 1000)
  ∧ (inPy ['M', 'M'] (excelUpper s) = false → inPy ['B', 'L'] (excelUpper s) = false →
      inPy ['B'] (excelUpper s) = false → inPy ['M'] (excelUpper s) = false →
      inPy ['K'] (excelUpper s) = false → excelMultiplier s = 1)
  ∧ excelParseCurrency (.str s) = numericRemainder (excelRemainder s) * excelMultiplier s
  ∧ (inPy ['M'] (pdfClean s) = true → pdfMultiplier s = 1000000)
  ∧ (inPy ['M'] (pdfClean s) = false → inPy ['K'] (pdfClean s) = true →
      pdfMultiplier s = 1000)
  ∧ (inPy ['M'] (pdfClean s) = false → inPy ['K'] (pdfClean s) = false →
      pdfMultiplier s = 1)
  ∧ pdfParseCurrency s =
      (if s.data.isEmpty then 0 else pdfRemainder (pdfStripped s) * pdfMultiplier s) := by
  refine ⟨?_, ?_, ?_, ?_, ?_, ?_, excelParseCurrency_str s, ?_, ?_, ?_,
    pdfParseCurrency_eq s⟩ <;>
    (intros
     simp_all [excelMultiplier, excelSuffixMS, pdfMultiplier, pdfSuffixMS, pdfClean,
       excelUpper])

/-- C1 witness: the amended precedence evaluated on concrete inputs
(`$1.5BL` is billions on the spreadsheet path; `2MM` is millions there;
`5M` is millions on the PDF path). -/
theorem C1_amended_witness :
    excelMultiplier "$1.5BL" = 1000000000 ∧ excelMultiplier "2MM" = 1000000
      ∧ pdfMultiplier "5M" = 1000000 := by
  refine ⟨(C1_amended "$1.5BL").2.1 (by decide) (by decide),
          (C1_amended "2MM").1 (by decide),
          (C1_amended "5M").2.2.2.2.2.2.2.1 (by decide)⟩

/-! ## Claim C2 -/

/-- C2 counterexample: the claim asserts `parse_currency` is total on
both paths and returns numeric input verbatim; the PDF path calls
`.upper()` on its argument, so a non-zero number raises
`AttributeError` instead of being returned as a float. -/
theorem C2_counterexample :
    pdfParseCurrencyV (.num 5) = .error .attributeError ∧
      pdfParseCurrencyV (.num 5) ≠ .ok 5 := by
  constructor <;> decide

/-- C2 (amended): the spreadsheet `parse_currency` is total — `None`,
empty and unparseable input give `0.0`, numeric input is returned
verbatim; the PDF `parse_currency` is total on string and `None` input
(`0.0` on empty or unparseable) and on numeric zero, but raises
`AttributeError` on any non-zero numeric input. -/
theorem C2_amended :
    (∀ x : ℚ, excelParseCurrency (.num x) = x)
  ∧ excelParseCurrency .none = 0
  ∧ excelParseCurrency (.str "") = 0
  ∧ (∀ s : String, pyFloat? (excelRemainder s) = none →
      excelParseCurrency (.str s) = 0)
  ∧ (∀ s : String, pdfParseCurrencyV (.str s) = .ok (pdfParseCurrency s))
  ∧ pdfParseCurrencyV .none = .ok 0
  ∧ pdfParseCurrencyV (.num 0) = .ok 0
  ∧ pdfParseCurrency "" = 0
  ∧ (∀ s : String, pyFloat? (pdfStripped s) = none → pdfParseCurrency s = 0)
  ∧ (∀ x : ℚ, x ≠ 0 → pdfParseCurrencyV (.num x) = .error .attributeError) := by
  refine ⟨fun x => rfl, rfl, by decide, ?_, fun s => rfl, rfl, by decide, by decide,
    ?_, ?_⟩
  · intro s h
    rw [excelParseCurrency_str]
    unfold numericRemainder
    split_ifs <;> simp [h]
  · intro s h
    rw [pdfParseCurrency_eq]
    split_ifs with he
    · rfl
    · simp [pdfRemainder, h]
  · intro x hx
    unfold pdfParseCurrencyV
    simp [hx]

/-- C2 witness: the amended statement evaluated at concrete inputs
(`"abc"` is unparseable on the spreadsheet path; `5` raises on the PDF
path; `"zz"` is unparseable on the PDF path). -/
theorem C2_amended_witness :
    excelParseCurrency (.str "abc") = 0 ∧
      pdfParseCurrencyV (.num 5) = .error .attributeError ∧
      pdfParseCurrency "zz" = 0 :=
  ⟨C2_amended.2.2.2.1 "abc" (by decide),
   C2_amended.2.2.2.2.2.2.2.2.2 5 (by norm_num),
   C2_amended.2.2.2.2.2.2.2.2.1 "zz" (by decide)⟩

/-! ## Claim C3 -/

/-- C3: the Layer Pattern Recognizer cascade on the four specified
inputs — `"$75M ex $100M EQ"` matches the excess pattern;
`"$1BL Primary"` the primary pattern; `"$250M Terrorism"` the
standalone-with-keyword pattern (primary because neither `ex` nor `xs`
occurs); `"ALL RISKS EX ZURICH LEAD"` yields no in-text amount and is
the ambiguous case: `is_layer_header_row` flags the row as a layer
header, takes the limit from a sibling cell holding at least
$1,000,000, and yields no layer info otherwise. -/
theorem C3_cascade :
    extractLayerFromText "$75M ex $100M EQ" =
        some ⟨75000000, 100000000, false, "$75M ex $100M EQ"⟩
  ∧ extractLayerFromText "$1BL Primary" =
        some ⟨1000000000, 0, true, "$1BL Primary"⟩
  ∧ extractLayerFromText "$250M Terrorism" =
        some ⟨250000000, 0, true, "$250M Terrorism"⟩
  ∧ extractLayerFromText "ALL RISKS EX ZURICH LEAD" = none
  ∧ isLayerHeaderRow [.str "ALL RISKS EX ZURICH LEAD"] = (true, none)
  ∧ isLayerHeaderRow [.str "ALL RISKS EX ZURICH LEAD", .num 150000000] =
        (true, some ⟨150000000, 0, false, "ALL RISKS EX ZURICH LEAD"⟩)
  ∧ isLayerHeaderRow [.str "ALL RISKS EX ZURICH LEAD", .num 500000] = (true, none) := by
  refine ⟨?_, ?_, ?_, ?_, ?_, ?_, ?_⟩ <;> decide

/-! ## Claim C4 -/

/-- The C4 failing input: a named part-of allocation. -/
def c4text : String :=
  "Ironshore Limits: $2,500,000 (being 3.333%) part of $75,000,000 excess of $100,000,000"

/-- C4 (code bug): the source's comment says carrier-less matches
"already captured by the detailed pattern" are skipped, and the spec
says a carrier-less match is discarded when its span is contained in an
already-collected raw text.  The code tests containment the other way
around (`r["raw_text"] in match.group(0)`), so on `c4text` the
carrier-less parenthetical pattern re-emits the allocation already
collected by the named pattern: two results for one allocation, the
second with carrier "Unknown Carrier", even though its matched span is
contained in the first result's raw text (third conjunct) and the
coded test indeed fails to flag it (fourth conjunct). -/
theorem C4_double_emission :
    extractPartOfPatterns c4text =
      .ok [⟨"Ironshore", 2500000, 3333 / 100000, 75000000, 100000000, false,
            "Ironshore Limits: $2,500,000 (being 3.333%) part of $75,000,000 excess of $100,000,000"⟩,
           ⟨"Unknown Carrier", 2500000, 3333 / 100000, 75000000, 100000000, false,
            "$2,500,000 (being 3.333%) part of $75,000,000 excess of $100,000,000"⟩]
  ∧ inPy "$2,500,000 (being 3.333%) part of $75,000,000 excess of $100,000,000".data
      "Ironshore Limits: $2,500,000 (being 3.333%) part of $75,000,000 excess of $100,000,000".data
      = true
  ∧ pofAlreadyCaptured
      [⟨"Ironshore", 2500000, 3333 / 100000, 75000000, 100000000, false,
        "Ironshore Limits: $2,500,000 (being 3.333%) part of $75,000,000 excess of $100,000,000"⟩]
      "$2,500,000 (being 3.333%) part of $75,000,000 excess of $100,000,000".data
      = false := by
  refine ⟨?_, ?_, ?_⟩ <;> decide

/-! ## Claim C5 -/

/-- Sum of premiums of a carrier list. -/
def premSum (cs : List Carrier) : ℚ := (cs.map (fun c => c.premium)).sum

/-- Sum of carrier fees. -/
def feeSum (cs : List Carrier) : ℚ := (cs.map (fun c => c.carrier_fee)).sum

/-- Sum of surplus fees. -/
def surSum (cs : List Carrier) : ℚ := (cs.map (fun c => c.surplus_fee)).sum

/-- The exact-entry test, in the claim's language. -/
theorem sameCarrierEntry_iff (e c : Carrier) :
    sameCarrierEntry e c = true ↔
      (e.carrier_name = c.carrier_name ∧ |e.share - c.share| < 1 / 10000) := by
  simp [sameCarrierEntry]

theorem mergeCarrierExcel_append (c : Carrier) :
    ∀ existing, (∀ e ∈ existing, sameCarrierEntry e c = false) →
      mergeCarrierExcel existing c = existing ++ [c] := by
  intro existing
  induction existing with
  | nil => intro _; rfl
  | cons e rest ih =>
    intro h
    have he := h e (List.mem_cons_self e rest)
    simp only [mergeCarrierExcel, mergeCarrierExcel.go, he]
    simp only [Bool.false_eq_true, if_false, List.cons_append, List.cons.injEq, true_and]
    have := ih (fun x hx => h x (List.mem_cons_of_mem e hx))
    simpa [mergeCarrierExcel] using this

theorem mergeCarrierExcel_dup (c : Carrier) :
    ∀ existing, (∃ e ∈ existing, sameCarrierEntry e c = true) →
      (mergeCarrierExcel existing c).length = existing.length
      ∧ premSum (mergeCarrierExcel existing c) = premSum existing + c.premium
      ∧ feeSum (mergeCarrierExcel existing c) = feeSum existing + c.carrier_fee
      ∧ surSum (mergeCarrierExcel existing c) = surSum existing + c.surplus_fee := by
  intro existing
  induction existing with
  | nil => rintro ⟨e, he, _⟩; cases he
  | cons e rest ih =>
    rintro ⟨x, hx, hxc⟩
    by_cases hec : sameCarrierEntry e c = true
    · simp [mergeCarrierExcel, mergeCarrierExcel.go, hec, premSum, feeSum, surSum]
      refine ⟨by ring, by ring, by ring⟩
    · have hxr : x ∈ rest := by
        rcases List.mem_cons.mp hx with h | h
        · exact absurd (h ▸ hxc) hec
        · exact h
      have := ih ⟨x, hxr, hxc⟩
      simp only [mergeCarrierExcel] at this
      simp [mergeCarrierExcel, mergeCarrierExcel.go, hec, premSum, feeSum, surSum] at this ⊢
      refine ⟨this.1, by linarith [this.2.1], by linarith [this.2.2.1], by linarith [this.2.2.2]⟩

theorem pofCarrierMerge_append (p : PartOf) (pn : Option String) :
    ∀ existing, (∀ e ∈ existing, e.carrier_name ≠ p.carrier_name) →
      pofCarrierMerge existing p pn =
        existing ++ [⟨p.carrier_name, p.share, p.carrier_limit, 0, 0, pn, false, []⟩] := by
  intro existing
  induction existing with
  | nil => intro _; rfl
  | cons e rest ih =>
    intro h
    have he := h e (List.mem_cons_self e rest)
    simp only [pofCarrierMerge, pofCarrierMerge.go, he]
    simp only [if_false, List.cons_append, List.cons.injEq, true_and]
    have := ih (fun x hx => h x (List.mem_cons_of_mem e hx))
    simpa [pofCarrierMerge] using this

theorem pofCarrierMerge_dup (p : PartOf) (pn : Option String) :
    ∀ existing, (∃ e ∈ existing, e.carrier_name = p.carrier_name) →
      (pofCarrierMerge existing p pn).length = existing.length
      ∧ premSum (pofCarrierMerge existing p pn) = premSum existing + p.carrier_limit := by
  intro existing
  induction existing with
  | nil => rintro ⟨e, he, _⟩; cases he
  | cons e rest ih =>
    rintro ⟨x, hx, hxc⟩
    by_cases hec : e.carrier_name = p.carrier_name
    · simp [pofCarrierMerge, pofCarrierMerge.go, hec, premSum]
      ring
    · have hxr : x ∈ rest := by
        rcases List.mem_cons.mp hx with h | h
        · exact absurd (h ▸ hxc) hec
        · exact h
      have := ih ⟨x, hxr, hxc⟩
      simp only [pofCarrierMerge] at this
      simp [pofCarrierMerge, pofCarrierMerge.go, hec, premSum] at this ⊢
      exact ⟨this.1, by linarith [this.2]⟩

/-- The C5 counterexample document: one successful PDF parse result with
two part-of participations of the same carrier at clearly different
shares (0.25 and 0.5) of the same `(limit, attachment)` bucket. -/
def c5doc : PdfParseResult :=
  ⟨"d.pdf", some "Quote", some "PN-1", [], [],
   [⟨"Acme Insurance", 250000, 1 / 4, 1000000, 0, false, "raw one"⟩,
    ⟨"Acme Insurance", 500000, 1 / 2, 1000000, 0, false, "raw two"⟩],
   some "", true, none⟩

/-- C5 counterexample: the claim says both merge engines treat a carrier
as an exact duplicate **iff** the names match and the share difference
is below `0.0001`, appending it as a new participation otherwise.  In
`merge_parsed_documents` the two `c5doc` participations differ in share
by `0.25 ≥ 0.0001`, yet the merged bucket holds a single carrier entry
(share 0.25, premiums summed to 750000) instead of two. -/
theorem C5_counterexample :
    |(1 : ℚ) / 4 - 1 / 2| ≥ 1 / 10000
  ∧ (mergeParsedDocuments [c5doc]).layers =
      [⟨1000000, 0, false,
        [⟨"Acme Insurance", 1 / 4, 750000, 0, 0, some "PN-1", false, []⟩]⟩] := by
  constructor
  · have habs : |(1 : ℚ) / 4 - 1 / 2| = 1 / 4 := by
      rw [abs_of_nonpos (by norm_num)]; norm_num
    rw [habs]; norm_num
  · decide

/-- C5 (amended): in `merge_excel_programs` a carrier is an exact
duplicate of a bucket entry iff the names are equal and the share
difference is below `0.0001`; exact duplicates have premium and both
fees summed into the existing entry (length unchanged), any other
carrier is appended.  In `merge_parsed_documents`, part-of carriers are
deduplicated by carrier name alone: a name match absorbs the carrier
limit into the existing premium regardless of share, and only unmatched
names are appended. -/
theorem C5_amended :
    (∀ existing c, (∀ e ∈ existing,
        ¬(e.carrier_name = c.carrier_name ∧ |e.share - c.share| < 1 / 10000)) →
      mergeCarrierExcel existing c = existing ++ [c])
  ∧ (∀ existing c, (∃ e ∈ existing,
        e.carrier_name = c.carrier_name ∧ |e.share - c.share| < 1 / 10000) →
      (mergeCarrierExcel existing c).length = existing.length
      ∧ premSum (mergeCarrierExcel existing c) = premSum existing + c.premium
      ∧ feeSum (mergeCarrierExcel existing c) = feeSum existing + c.carrier_fee
      ∧ surSum (mergeCarrierExcel existing c) = surSum existing + c.surplus_fee)
  ∧ (∀ existing p pn, (∀ e ∈ existing, e.carrier_name ≠ p.carrier_name) →
      pofCarrierMerge existing p pn =
        existing ++ [⟨p.carrier_name, p.share, p.carrier_limit, 0, 0, pn, false, []⟩])
  ∧ (∀ existing p pn, (∃ e ∈ existing, e.carrier_name = p.carrier_name) →
      (pofCarrierMerge existing p pn).length = existing.length
      ∧ premSum (pofCarrierMerge existing p pn) = premSum existing + p.carrier_limit) := by
  refine ⟨?_, ?_, ?_, ?_⟩
  · intro existing c h
    refine mergeCarrierExcel_append c existing (fun e he => ?_)
    have := h e he
    rcases hb : sameCarrierEntry e c with _ | _
    · rfl
    · exact absurd ((sameCarrierEntry_iff e c).mp hb) this
  · intro existing c h
    refine mergeCarrierExcel_dup c existing ?_
    rcases h with ⟨e, he, hc⟩
    exact ⟨e, he, (sameCarrierEntry_iff e c).mpr hc⟩
  · exact fun existing p pn h => pofCarrierMerge_append p pn existing h
  · exact fun existing p pn h => pofCarrierMerge_dup p pn existing h

/-- C5 witness: the amended rules at concrete inputs — on the excel
path a same-name carrier with share difference `0.25` is appended, one
within `0.00001` is absorbed with premiums summed; on the PDF path a
same-name part-of carrier is absorbed by name despite a 0.25 share
difference. -/
theorem C5_amended_witness :
    mergeCarrierExcel [⟨"Acme", 1 / 4, 100, 0, 0, some "", false, []⟩]
        ⟨"Acme", 1 / 2, 50, 0, 0, some "", false, []⟩ =
      [⟨"Acme", 1 / 4, 100, 0, 0, some "", false, []⟩,
       ⟨"Acme", 1 / 2, 50, 0, 0, some "", false, []⟩]
  ∧ (mergeCarrierExcel [⟨"Acme", 1 / 4, 100, 0, 0, some "", false, []⟩]
        ⟨"Acme", 1 / 4 + 1 / 100000, 70, 0, 0, some "", false, []⟩).length = 1
  ∧ premSum (pofCarrierMerge [⟨"Acme", 1 / 4, 100, 0, 0, some "", false, []⟩]
        ⟨"Acme", 500000, 1 / 2, 1000000, 0, false, "r"⟩ (some "")) = 100 + 500000 := by
  refine ⟨C5_amended.1 _ _ ?_, (C5_amended.2.1 _ _ ?_).1, ?_⟩
  · intro e he
    simp only [List.mem_singleton] at he
    subst he
    intro hc
    have h2 := hc.2
    rw [show |(1 : ℚ) / 4 - 1 / 2| = 1 / 4 by
      rw [abs_of_nonpos (by norm_num)]; norm_num] at h2
    norm_num at h2
  · refine ⟨_, List.mem_singleton_self _, rfl, ?_⟩
    rw [show |(1 : ℚ) / 4 - (1 / 4 + 1 / 100000)| = 1 / 100000 by
      rw [abs_of_nonpos (by norm_num)]; norm_num]
    norm_num
  · have := (C5_amended.2.2.2 [⟨"Acme", 1 / 4, 100, 0, 0, some "", false, []⟩]
      ⟨"Acme", 500000, 1 / 2, 1000000, 0, false, "r"⟩ (some "")
      ⟨_, List.mem_singleton_self _, rfl⟩).2
    rw [this]
    norm_num [premSum]

/-! ## Claim C6 -/

/-- The `(limit, attachment)` keys of a bucket list, in order. -/
def keysOf (acc : List ExcelLayer) : List (ℚ × ℚ) :=
  acc.map (fun b => (b.limit, b.attachment))

/-- Total premium over a layer list. -/
def layersPremSum (ls : List ExcelLayer) : ℚ :=
  (ls.map (fun l => premSum l.carriers)).sum

theorem premSum_mergeCarrier (c : Carrier) :
    ∀ cs, premSum (mergeCarrierExcel cs c) = premSum cs + c.premium := by
  intro cs
  induction cs with
  | nil => simp [mergeCarrierExcel, mergeCarrierExcel.go, premSum]
  | cons e rest ih =>
    by_cases hec : sameCarrierEntry e c = true
    · simp [mergeCarrierExcel, mergeCarrierExcel.go, hec, premSum]
      ring
    · simp only [mergeCarrierExcel] at ih
      simp [mergeCarrierExcel, mergeCarrierExcel.go, hec, premSum] at ih ⊢
      linarith [ih]

theorem premSum_foldMerge :
    ∀ (l : List Carrier) (cs : List Carrier),
      premSum (l.foldl mergeCarrierExcel cs) = premSum cs + premSum l := by
  intro l
  induction l with
  | nil => intro cs; simp [premSum]
  | cons c rest ih =>
    intro cs
    simp only [List.foldl_cons]
    rw [ih, premSum_mergeCarrier]
    simp [premSum]
    ring

/-- The keys after one bucket insertion: unchanged when the key exists,
appended otherwise. -/
theorem mergeLayer_keys (l : ExcelLayer) :
    ∀ acc, keysOf (mergeLayerExcel acc l) =
      if (l.limit, l.attachment) ∈ keysOf acc then keysOf acc
      else keysOf acc ++ [(l.limit, l.attachment)] := by
  intro acc
  induction acc with
  | nil => simp [mergeLayerExcel, mergeLayerExcel.go, keysOf]
  | cons b rest ih =>
    simp only [mergeLayerExcel] at ih
    by_cases hb : b.limit = l.limit ∧ b.attachment = l.attachment
    · have hmem : (l.limit, l.attachment) ∈ keysOf (b :: rest) := by
        simp only [keysOf, List.map_cons, List.mem_cons]
        exact Or.inl (by rw [hb.1, hb.2])
      rw [if_pos hmem]
      unfold mergeLayerExcel mergeLayerExcel.go
      rw [if_pos hb]
      rfl
    · have hkey : (b.limit, b.attachment) ≠ (l.limit, l.attachment) := fun hc =>
        hb ⟨congrArg Prod.fst hc, congrArg Prod.snd hc⟩
      have hmem : ((l.limit, l.attachment) ∈ keysOf (b :: rest)) ↔
          ((l.limit, l.attachment) ∈ keysOf rest) := by
        simp only [keysOf, List.map_cons, List.mem_cons]
        exact ⟨fun h => h.resolve_left (fun h' => hkey h'.symm), Or.inr⟩
      have hgo : keysOf (mergeLayerExcel.go l (b :: rest)) =
          (b.limit, b.attachment) :: keysOf (mergeLayerExcel.go l rest) := by
        conv_lhs => rw [mergeLayerExcel.go.eq_def]
        dsimp only
        rw [if_neg hb]
        rfl
      unfold mergeLayerExcel
      rw [hgo]
      by_cases hm : (l.limit, l.attachment) ∈ keysOf rest
      · rw [if_pos hm] at ih
        rw [ih, if_pos (hmem.mpr hm)]
        rfl
      · rw [if_neg hm] at ih
        rw [ih, if_neg (fun h => hm (hmem.mp h))]
        simp [keysOf]

theorem keysOf_length (acc : List ExcelLayer) : (keysOf acc).length = acc.length :=
  List.length_map acc _

theorem mergeLayer_key_mem (l : ExcelLayer) (acc : List ExcelLayer) :
    (l.limit, l.attachment) ∈ keysOf (mergeLayerExcel acc l) := by
  rw [mergeLayer_keys]
  by_cases hm : (l.limit, l.attachment) ∈ keysOf acc <;> simp [hm]

theorem mergeLayer_keys_mono (l : ExcelLayer) (k : ℚ × ℚ) (acc : List ExcelLayer)
    (h : k ∈ keysOf acc) : k ∈ keysOf (mergeLayerExcel acc l) := by
  rw [mergeLayer_keys]
  by_cases hm : (l.limit, l.attachment) ∈ keysOf acc <;> simp [hm, h]

theorem mergeLayer_len (l : ExcelLayer) (acc : List ExcelLayer)
    (h : (l.limit, l.attachment) ∈ keysOf acc) :
    (mergeLayerExcel acc l).length = acc.length := by
  have := mergeLayer_keys l acc
  rw [if_pos h] at this
  rw [← keysOf_length, ← keysOf_length acc, this]

theorem mergeLayer_prem (l : ExcelLayer) :
    ∀ acc, layersPremSum (mergeLayerExcel acc l) =
      layersPremSum acc + premSum l.carriers := by
  intro acc
  induction acc with
  | nil =>
    simp only [mergeLayerExcel, mergeLayerExcel.go, layersPremSum, List.map_cons,
      List.map_nil, List.sum_cons, List.sum_nil]
    rw [premSum_foldMerge]
    simp [premSum]
  | cons b rest ih =>
    by_cases hb : b.limit = l.limit ∧ b.attachment = l.attachment
    · simp [mergeLayerExcel, mergeLayerExcel.go, hb, layersPremSum, premSum_foldMerge]
      ring
    · simp only [mergeLayerExcel] at ih
      simp [mergeLayerExcel, mergeLayerExcel.go, hb, layersPremSum] at ih ⊢
      linarith [ih]

theorem foldMergeLayer_keys_mono (k : ℚ × ℚ) :
    ∀ (ls : List ExcelLayer) (acc), k ∈ keysOf acc →
      k ∈ keysOf (ls.foldl mergeLayerExcel acc) := by
  intro ls
  induction ls with
  | nil => intro acc h; exact h
  | cons l rest ih =>
    intro acc h
    exact ih _ (mergeLayer_keys_mono l k acc h)

theorem foldMergeLayer_mem :
    ∀ (ls : List ExcelLayer) (acc) (l : ExcelLayer), l ∈ ls →
      (l.limit, l.attachment) ∈ keysOf (ls.foldl mergeLayerExcel acc) := by
  intro ls
  induction ls with
  | nil => intro acc l h; cases h
  | cons x rest ih =>
    intro acc l hl
    rcases List.mem_cons.mp hl with h | h
    · subst h
      exact foldMergeLayer_keys_mono _ rest _ (mergeLayer_key_mem l acc)
    · exact ih _ l h

theorem foldMergeLayer_len :
    ∀ (ls : List ExcelLayer) (acc), (∀ l ∈ ls, (l.limit, l.attachment) ∈ keysOf acc) →
      (ls.foldl mergeLayerExcel acc).length = acc.length := by
  intro ls
  induction ls with
  | nil => intro acc _; rfl
  | cons l rest ih =>
    intro acc h
    have h0 := h l (List.mem_cons_self l rest)
    rw [List.foldl_cons,
      ih _ (fun x hx => mergeLayer_keys_mono l _ acc (h x (List.mem_cons_of_mem l hx))),
      mergeLayer_len l acc h0]

theorem foldMergeLayer_prem :
    ∀ (ls : List ExcelLayer) (acc),
      layersPremSum (ls.foldl mergeLayerExcel acc) =
        layersPremSum acc + layersPremSum ls := by
  intro ls
  induction ls with
  | nil => intro acc; simp [layersPremSum]
  | cons l rest ih =>
    intro acc
    rw [List.foldl_cons, ih, mergeLayer_prem]
    simp [layersPremSum]
    ring

theorem insSorted_perm (x : ExcelLayer) :
    ∀ ls, List.Perm (insSorted x ls) (x :: ls) := by
  intro ls
  induction ls with
  | nil => simp [insSorted]
  | cons y ys ih =>
    by_cases hb : x.attachment ≤ y.attachment
    · simp [insSorted, hb]
    · simp only [insSorted, hb, if_false]
      exact (List.Perm.cons y ih).trans (List.Perm.swap x y ys)

theorem sortByAttachment_perm :
    ∀ ls, List.Perm (sortByAttachment ls) ls := by
  intro ls
  induction ls with
  | nil => simp [sortByAttachment]
  | cons x xs ih =>
    exact (insSorted_perm x (sortByAttachment xs)).trans (List.Perm.cons x ih)

theorem sortByAttachment_length (ls : List ExcelLayer) :
    (sortByAttachment ls).length = ls.length :=
  (sortByAttachment_perm ls).length_eq

theorem sortByAttachment_premSum (ls : List ExcelLayer) :
    layersPremSum (sortByAttachment ls) = layersPremSum ls := by
  unfold layersPremSum
  exact ((sortByAttachment_perm ls).map (fun l => premSum l.carriers)).sum_eq

/-- C6: merging a successful document with itself yields exactly as many
distinct `(limit, attachment)` buckets as merging it alone, while the
total of carrier premiums doubles (each exact-duplicate carrier's
premium is summed into its bucket entry). -/
theorem C6_merge_idempotent (d : ExcelParseResult) (h : d.success = true) :
    (mergeExcelPrograms [d, d]).layers.length = (mergeExcelPrograms [d]).layers.length
  ∧ layersPremSum (mergeExcelPrograms [d, d]).layers =
      2 * layersPremSum (mergeExcelPrograms [d]).layers := by
  unfold mergeExcelPrograms
  simp only [List.foldl_cons, List.foldl_nil, h, if_true]
  constructor
  · rw [sortByAttachment_length, sortByAttachment_length]
    exact foldMergeLayer_len d.layers _ (fun l hl => foldMergeLayer_mem d.layers [] l hl)
  · rw [sortByAttachment_premSum, sortByAttachment_premSum,
      foldMergeLayer_prem, foldMergeLayer_prem]
    simp [layersPremSum]
    ring

/-- C6 witness: the bucket count and premium doubling at a concrete
one-layer document. -/
theorem C6_witness :
    (mergeExcelPrograms [⟨"w", [⟨1000000, 0, true,
        [⟨"Acme One", 1 / 2, 10, 0, 0, some "", false, []⟩]⟩], true, none⟩,
      ⟨"w", [⟨1000000, 0, true,
        [⟨"Acme One", 1 / 2, 10, 0, 0, some "", false, []⟩]⟩], true, none⟩]).layers.length
      = (mergeExcelPrograms [⟨"w", [⟨1000000, 0, true,
        [⟨"Acme One", 1 / 2, 10, 0, 0, some "", false, []⟩]⟩], true, none⟩]).layers.length
  ∧ layersPremSum (mergeExcelPrograms [⟨"w", [⟨1000000, 0, true,
        [⟨"Acme One", 1 / 2, 10, 0, 0, some "", false, []⟩]⟩], true, none⟩,
      ⟨"w", [⟨1000000, 0, true,
        [⟨"Acme One", 1 / 2, 10, 0, 0, some "", false, []⟩]⟩], true, none⟩]).layers
      = 2 * layersPremSum (mergeExcelPrograms [⟨"w", [⟨1000000, 0, true,
        [⟨"Acme One", 1 / 2, 10, 0, 0, some "", false, []⟩]⟩], true, none⟩]).layers :=
  C6_merge_idempotent _ rfl

/-! ## Claim C7 -/

/-- A header-keyword cell in the spec's wording: non-empty, and its
cleaned text equals a header keyword or its text starts with a keyword
followed by a space or `(`. -/
def isHeaderKeywordCell (cv : CellValue) : Bool :=
  pyTruthy cv &&
    (let cellText := stripL (lowerL (pyStrOf cv))
     let cellClean := cleanAlpha cellText
     headerKeywords.any (fun kw =>
       cellClean = kw || startsW cellText (kw ++ [' ']) ||
         startsW cellText (kw ++ ['('])))

theorem headerCellScore_ge (cv : CellValue) (h : isHeaderKeywordCell cv = true) :
    1 ≤ headerCellScore cv := by
  unfold isHeaderKeywordCell at h
  rw [Bool.and_eq_true] at h
  obtain ⟨ht, hk⟩ := h
  unfold headerCellScore
  rw [if_pos ht]
  dsimp only
  rw [if_pos hk]
  omega

theorem score_sum_ge_count :
    ∀ row : List CellValue, List.countP isHeaderKeywordCell row ≤
      (row.map headerCellScore).sum := by
  intro row
  induction row with
  | nil => simp
  | cons cv rest ih =>
    rw [List.countP_cons, List.map_cons, List.sum_cons]
    by_cases h : isHeaderKeywordCell cv = true
    · have := headerCellScore_ge cv h
      simp only [h, if_pos]
      omega
    · simp [h]
      omega

theorem keyword_cells_qualify (row : List CellValue)
    (h : 3 ≤ List.countP isHeaderKeywordCell row) :
    isParticipantHeaderRow row = true := by
  have hsum := score_sum_ge_count row
  have hany : row.any pyTruthy = true := by
    have hpos : 0 < List.countP isHeaderKeywordCell row := by omega
    rw [List.countP_pos_iff] at hpos
    obtain ⟨cv, hcv, hk⟩ := hpos
    rw [List.any_eq_true]
    refine ⟨cv, hcv, ?_⟩
    unfold isHeaderKeywordCell at hk
    rw [Bool.and_eq_true] at hk
    exact hk.1
  unfold isParticipantHeaderRow
  rw [if_neg (fun hn => hn hany)]
  exact decide_eq_true (by omega)

/-- C7: when a rowful of cells is recognized as a LayerHeader (and is not
skipped as empty/divider/total), the Sheet Walker still tests the same
row as a ColumnHeader: if `is_participant_header_row` accepts it, the
column map is recomputed from that very row, while the layer state was
already updated from the recognized layer info; and any row with at
least 3 header-keyword cells is accepted as a ColumnHeader. -/
theorem C7_layer_then_column (st : WalkSt) (row : List CellValue)
    (h1 : row.any pyTruthy = true) (h2 : isSkipRow row = false)
    (h3 : isTotalRow row = false) (h4 : (isLayerHeaderRow row).1 = true)
    (h5 : isParticipantHeaderRow row = true) :
    ((stepRow false st row).1.colMap = mapColumns row
  ∧ (stepRow false st row).1.currentLayer =
      (match (isLayerHeaderRow row).2 with
        | some info => some ⟨info.limit, info.attachment, info.is_primary, []⟩
        | none => none)
  ∧ (stepRow false st row).1.allLayers =
      (match st.currentLayer with
        | some cl => if ¬ cl.carriers.isEmpty then st.allLayers ++ [cl]
                     else st.allLayers
        | none => st.allLayers))
  ∧ (3 ≤ List.countP isHeaderKeywordCell row → isParticipantHeaderRow row = true) := by
  refine ⟨?_, fun hc => keyword_cells_qualify row hc⟩
  unfold stepRow
  rw [if_neg (fun hn => hn h1), if_neg (by simp [h2]), if_neg (by simp [h3])]
  dsimp only
  simp only [h4, h5, if_true]
  exact ⟨trivial, trivial, trivial⟩

/-- The C7 witness row: simultaneously a layer header (`$75M ex $100M`
in column A) and a participant header (Participant/Line/Premium). -/
def c7row : List CellValue :=
  [.str "$75M ex $100M", .str "Participant", .str "Line", .str "Premium"]

/-- C7 witness: the theorem at the concrete dual-purpose row. -/
theorem C7_witness :
    ((stepRow false ⟨none, {}, []⟩ c7row).1.colMap = mapColumns c7row
  ∧ (stepRow false ⟨none, {}, []⟩ c7row).1.currentLayer =
      (match (isLayerHeaderRow c7row).2 with
        | some info => some ⟨info.limit, info.attachment, info.is_primary, []⟩
        | none => none)
  ∧ (stepRow false ⟨none, {}, []⟩ c7row).1.allLayers =
      (match (⟨none, {}, []⟩ : WalkSt).currentLayer with
        | some cl => if ¬ cl.carriers.isEmpty then
              (⟨none, {}, []⟩ : WalkSt).allLayers ++ [cl]
            else (⟨none, {}, []⟩ : WalkSt).allLayers
        | none => (⟨none, {}, []⟩ : WalkSt).allLayers))
  ∧ (3 ≤ List.countP isHeaderKeywordCell c7row →
      isParticipantHeaderRow c7row = true) :=
  C7_layer_then_column ⟨none, {}, []⟩ c7row (by decide) (by decide) (by decide)
    (by decide) (by decide)

/-! ## Claim C8 -/

/-- One walker step's state is independent of the debug flag (the flag
only gates log lines). -/
theorem stepRow_fst (d : Bool) (st : WalkSt) (row : List CellValue) :
    (stepRow d st row).1 = (stepRow false st row).1 := by
  unfold stepRow
  by_cases c1 : row.any pyTruthy = true
  · simp only [if_neg (fun hn : ¬ (row.any pyTruthy = true) => (hn c1 : False))]
    by_cases c2 : isSkipRow row = true
    · simp only [if_pos c2]
    · simp only [if_neg c2]
      by_cases c3 : isTotalRow row = true
      · simp only [if_pos c3]
      · simp only [if_neg c3]
        by_cases c5 : isParticipantHeaderRow row = true
        · simp only [if_pos c5]
        · simp only [if_neg c5]
          split <;> try rfl
          split <;> rfl
  · simp only [if_pos (c1 : ¬ (row.any pyTruthy = true))]

theorem walkFold_fst (d : Bool) :
    ∀ (rows : List (List CellValue)) (p q : WalkSt × List String), p.1 = q.1 →
      (rows.foldl (fun p row => let r := stepRow d p.1 row; (r.1, p.2 ++ r.2)) p).1 =
        (rows.foldl (fun p row => let r := stepRow false p.1 row; (r.1, p.2 ++ r.2)) q).1 := by
  intro rows
  induction rows with
  | nil => intro p q h; exact h
  | cons row rest ih =>
    intro p q h
    rw [List.foldl_cons, List.foldl_cons]
    apply ih
    dsimp only
    rw [h]
    exact stepRow_fst d q.1 row

theorem walkSheet_fst (d : Bool) (st : WalkSt) (rows : List (List CellValue)) :
    (walkSheet d st rows).1 = (walkSheet false st rows).1 := by
  unfold walkSheet
  exact walkFold_fst d rows _ _ rfl

theorem walkSheetsFold_fst (d : Bool) :
    ∀ (sheets : List (List (List CellValue))) (p q : WalkSt × List String), p.1 = q.1 →
      (sheets.foldl (fun p sheet => let r := walkSheet d p.1 sheet; (r.1, p.2 ++ r.2)) p).1 =
        (sheets.foldl (fun p sheet => let r := walkSheet false p.1 sheet; (r.1, p.2 ++ r.2)) q).1 := by
  intro sheets
  induction sheets with
  | nil => intro p q h; exact h
  | cons sheet rest ih =>
    intro p q h
    rw [List.foldl_cons, List.foldl_cons]
    apply ih
    dsimp only
    rw [h]
    exact walkSheet_fst d q.1 sheet

theorem walkSheets_fst (d : Bool) (sheets : List (List (List CellValue))) :
    (walkSheets d sheets).1 = (walkSheets false sheets).1 := by
  unfold walkSheets
  exact walkSheetsFold_fst d sheets _ _ rfl

/-- C8: the debug flag does not affect the parse result — for every
input and filename, parsing with any two flag values yields equal
results (same filename, layers, success, error); only the trace
differs. -/
theorem C8_debug_no_effect (input : ExcelInput) (fn : String) (d1 d2 : Bool) :
    (parseExcelProgram input fn d1).1 = (parseExcelProgram input fn d2).1 := by
  cases input with
  | corrupt m => rfl
  | ok sheets =>
    unfold parseExcelProgram
    dsimp only
    rw [walkSheets_fst d1, walkSheets_fst d2]

/-! ## Claim C9 -/

/-- C9: per-document parses never raise.  A byte stream that cannot be
opened (`corrupt`) yields `success := false` with the message and empty
layers/limits/carriers on both paths; a readable spreadsheet always
parses with `success := true` and no error; a readable PDF either
succeeds or — when an internal extraction raise is caught — reports
`success := false` with a non-null error and empty limits/carriers; and
documents whose content matches no pattern still succeed with zero
layers. -/
theorem C9_error_reporting :
    (∀ m fn d, (parseExcelProgram (.corrupt m) fn d).1 =
      ⟨fn, [], false, some m⟩)
  ∧ (∀ sheets fn d, (parseExcelProgram (.ok sheets) fn d).1.success = true
      ∧ (parseExcelProgram (.ok sheets) fn d).1.error = none)
  ∧ (∀ m fn, parseInsurancePdf (.corrupt m) fn =
      ⟨fn, none, none, [], [], [], none, false,
        some ("Error extracting PDF text: " ++ m)⟩)
  ∧ (∀ t fn, (parseInsurancePdf (.ok t) fn).success = true
      ∨ ((parseInsurancePdf (.ok t) fn).success = false
         ∧ (parseInsurancePdf (.ok t) fn).error ≠ none
         ∧ (parseInsurancePdf (.ok t) fn).limits = []
         ∧ (parseInsurancePdf (.ok t) fn).carriers = []))
  ∧ (parseExcelProgram (.ok [[[.str "no layers here"]]]) "f" false).1 =
      ⟨"f", [], true, none⟩
  ∧ parseInsurancePdf (.ok "plain text with no patterns") "g" =
      ⟨"g", some "Unknown", none, [], [], [],
        some "plain text with no patterns", true, none⟩ := by
  refine ⟨fun m fn d => rfl, fun sheets fn d => ⟨rfl, rfl⟩, fun m fn => rfl,
    ?_, by decide, by decide⟩
  intro t fn
  unfold parseInsurancePdf
  dsimp only
  cases hp : extractPartOfPatterns t with
  | error e => refine Or.inr ?_; simp [hp]
  | ok pofs =>
    cases hc : extractCarrierInfo t with
    | error e => refine Or.inr ?_; simp [hp, hc]
    | ok cs => refine Or.inl ?_; simp [hp, hc]

/-! ## Claim C10 -/

/-- Invariant: every accumulated layer has at least one carrier. -/
def accOK (st : WalkSt) : Prop := ∀ l ∈ st.allLayers, l.carriers ≠ []

/-- One walker step either leaves the accumulated layers unchanged or
flushes the pending layer, and only when its carrier list is nonempty. -/
theorem stepRow_allLayers (d : Bool) (st : WalkSt) (row : List CellValue) :
    (stepRow d st row).1.allLayers = st.allLayers ∨
      (∃ cl, st.currentLayer = some cl ∧ ¬ cl.carriers.isEmpty = true ∧
        (stepRow d st row).1.allLayers = st.allLayers ++ [cl]) := by
  unfold stepRow
  dsimp only
  repeat' split
  all_goals try exact Or.inl rfl
  all_goals exact Or.inr ⟨_, by assumption, by assumption, rfl⟩

theorem stepRow_accOK (d : Bool) (st : WalkSt) (row : List CellValue)
    (h : accOK st) : accOK (stepRow d st row).1 := by
  rcases stepRow_allLayers d st row with heq | ⟨cl, _, hne, heq⟩
  · intro l hl
    rw [heq] at hl
    exact h l hl
  · intro l hl
    rw [heq] at hl
    rcases List.mem_append.mp hl with h1 | h1
    · exact h l h1
    · rw [List.mem_singleton] at h1
      subst h1
      intro hnil
      exact hne (by rw [hnil]; rfl)

theorem foldRows_accOK (d : Bool) :
    ∀ (rows : List (List CellValue)) (p : WalkSt × List String), accOK p.1 →
      accOK (rows.foldl (fun p row => let r := stepRow d p.1 row; (r.1, p.2 ++ r.2)) p).1 := by
  intro rows
  induction rows with
  | nil => intro p h; exact h
  | cons row rest ih =>
    intro p h
    rw [List.foldl_cons]
    exact ih _ (stepRow_accOK d p.1 row h)

theorem walkSheet_accOK (d : Bool) (st : WalkSt) (rows : List (List CellValue))
    (h : accOK st) : accOK (walkSheet d st rows).1 := by
  unfold walkSheet
  exact foldRows_accOK d rows _ h

theorem walkSheets_accOK (d : Bool) (sheets : List (List (List CellValue))) :
    accOK (walkSheets d sheets).1 := by
  unfold walkSheets
  have main : ∀ (ls : List (List (List CellValue))) (p : WalkSt × List String),
      accOK p.1 →
      accOK (ls.foldl (fun p sheet => let r := walkSheet d p.1 sheet; (r.1, p.2 ++ r.2)) p).1 := by
    intro ls
    induction ls with
    | nil => intro p h; exact h
    | cons sheet rest ih =>
      intro p h
      rw [List.foldl_cons]
      exact ih _ (walkSheet_accOK d p.1 sheet h)
  exact main sheets _ (fun l hl => absurd hl (List.not_mem_nil l))

theorem finalLayers_ok (st : WalkSt) (h : accOK st) :
    ∀ l ∈ finalLayers st, l.carriers ≠ [] := by
  unfold finalLayers
  intro l hl
  rcases hc : st.currentLayer with _ | cl
  · rw [hc] at hl
    exact h l hl
  · rw [hc] at hl
    dsimp only at hl
    by_cases hne : ¬ cl.carriers.isEmpty = true
    · rw [if_pos hne] at hl
      rcases List.mem_append.mp hl with h1 | h1
      · exact h l h1
      · rw [List.mem_singleton] at h1
        subst h1
        intro hnil
        exact hne (by rw [hnil]; rfl)
    · rw [if_neg hne] at hl
      exact h l hl

theorem dedupAppend_ne_nil (cs : List Carrier) (c : Carrier) :
    dedupAppend cs c ≠ [] := by
  unfold dedupAppend
  split
  · rename_i hany
    intro hnil
    subst hnil
    simp at hany
  · simp

theorem foldDedup_ne_nil :
    ∀ (l : List Carrier) (cs : List Carrier), cs ≠ [] ∨ l ≠ [] →
      l.foldl dedupAppend cs ≠ [] := by
  intro l
  induction l with
  | nil =>
    intro cs h
    rcases h with h | h
    · exact h
    · exact absurd rfl h
  | cons c rest ih =>
    intro cs _
    rw [List.foldl_cons]
    exact ih _ (Or.inl (dedupAppend_ne_nil cs c))

theorem dedupStep_ok (l : ExcelLayer) (hl : l.carriers ≠ []) :
    ∀ acc, (∀ b ∈ acc, b.carriers ≠ []) →
      ∀ b ∈ dedupStep l acc, b.carriers ≠ [] := by
  intro acc
  induction acc with
  | nil =>
    intro _ b hb
    unfold dedupStep at hb
    rw [List.mem_singleton] at hb
    subst hb
    exact foldDedup_ne_nil l.carriers [] (Or.inr hl)
  | cons a rest ih =>
    intro h b hb
    unfold dedupStep at hb
    split at hb
    · rcases List.mem_cons.mp hb with h1 | h1
      · subst h1
        exact foldDedup_ne_nil l.carriers a.carriers
          (Or.inl (h a (List.mem_cons_self a rest)))
      · exact h b (List.mem_cons_of_mem a h1)
    · rcases List.mem_cons.mp hb with h1 | h1
      · subst h1
        exact h b (List.mem_cons_self b rest)
      · exact ih (fun x hx => h x (List.mem_cons_of_mem a hx)) b h1

theorem dedupLayers_ok (ls : List ExcelLayer) (hls : ∀ l ∈ ls, l.carriers ≠ []) :
    ∀ b ∈ dedupLayers ls, b.carriers ≠ [] := by
  unfold dedupLayers
  have main : ∀ (l2 : List ExcelLayer), (∀ l ∈ l2, l.carriers ≠ []) →
      ∀ (acc : List ExcelLayer), (∀ b ∈ acc, b.carriers ≠ []) →
      ∀ b ∈ l2.foldl (fun acc l => dedupStep l acc) acc, b.carriers ≠ [] := by
    intro l2
    induction l2 with
    | nil => intro _ acc hacc b hb; exact hacc b hb
    | cons l rest ih =>
      intro h2 acc hacc b hb
      rw [List.foldl_cons] at hb
      exact ih (fun x hx => h2 x (List.mem_cons_of_mem l hx)) _
        (dedupStep_ok l (h2 l (List.mem_cons_self l rest)) acc hacc) b hb
  exact main ls hls [] (fun b hb => absurd hb (List.not_mem_nil b))

/-- C10: every layer of a successful spreadsheet parse has at least one
carrier — the walker flushes a pending layer only when its carrier list
is nonempty, and the per-document dedup never empties a bucket. -/
theorem C10_layers_nonempty (input : ExcelInput) (fn : String) (d : Bool)
    (h : (parseExcelProgram input fn d).1.success = true) :
    ∀ l ∈ (parseExcelProgram input fn d).1.layers, l.carriers ≠ [] := by
  cases input with
  | corrupt m => simp [parseExcelProgram] at h
  | ok sheets =>
    intro l hl
    have hlayers : (parseExcelProgram (.ok sheets) fn d).1.layers =
        sortByAttachment (dedupLayers (finalLayers (walkSheets d sheets).1)) := rfl
    rw [hlayers] at hl
    have hmem := (sortByAttachment_perm _).mem_iff.mp hl
    exact dedupLayers_ok _
      (finalLayers_ok _ (walkSheets_accOK d sheets)) l hmem

/-- C10 witness: the theorem at a concrete one-layer workbook. -/
theorem C10_witness :
    (parseExcelProgram (.ok [[
        [.str "$50M Primary", .str "Participant", .str "Line", .str "Premium"],
        [.none, .str "Acme Insurance Co", .num 25000000, .num 100000]]])
      "f.xlsx" false).1.success = true
  ∧ ∀ l ∈ (parseExcelProgram (.ok [[
        [.str "$50M Primary", .str "Participant", .str "Line", .str "Premium"],
        [.none, .str "Acme Insurance Co", .num 25000000, .num 100000]]])
      "f.xlsx" false).1.layers, l.carriers ≠ [] :=
  ⟨rfl, C10_layers_nonempty _ "f.xlsx" false rfl⟩
